import Mathlib

/-!
Verification of the asymmetric-risk-mapper backend against its specification.

The Go sources are shallow-embedded: pure functions become Lean functions,
the relational store becomes explicit state passing over a `DB` record whose
query operations mirror the sqlc SQL statements, and fallible operations
return `Except`/sum types.  Machine `int` values are embedded as `Int`
(overflow never matters on the domains exercised here: probabilities,
impacts and scores are in [1,100] and ranks are small), and Go's
truncating integer conversion is `Int.tdiv`.
-/

namespace Scoring

/-! Embedding of internal/scoring/config.go. -/

/-- RadioConfig from config.go: ordered options with parallel probability and
impact score arrays (the JSON fields opts, p_scores, i_scores). -/
structure RadioConfig where
  opts : List String
  pScores : List Int
  iScores : List Int
deriving DecidableEq, Repr

/-- RadioConfig.Validate: the slices have consistent lengths and every score
is in [1, 10].  The embedding returns the first failing check, like the Go
code; the exact message text is immaterial. -/
def RadioConfig.validate (c : RadioConfig) : Except String Unit :=
  if c.opts.length = 0 then
    .error "radio config: opts must not be empty"
  else if c.pScores.length ≠ c.opts.length then
    .error "radio config: p_scores length mismatch"
  else if c.iScores.length ≠ c.opts.length then
    .error "radio config: i_scores length mismatch"
  else if c.pScores.any (fun s => s < 1 || s > 10) then
    .error "radio config: p_scores out of range"
  else if c.iScores.any (fun s => s < 1 || s > 10) then
    .error "radio config: i_scores out of range"
  else
    .ok ()

/-- TextConfig from config.go: length threshold plus short/long
probability/impact pairs. -/
structure TextConfig where
  threshold : Int
  pShort : Int
  pLong : Int
  iShort : Int
  iLong : Int
deriving DecidableEq, Repr

/-- TextConfig.Validate: all four score fields in [1, 10] and a non-negative
threshold. -/
def TextConfig.validate (c : TextConfig) : Except String Unit :=
  if c.pShort < 1 || c.pShort > 10 then .error "text config: p_short out of range"
  else if c.pLong < 1 || c.pLong > 10 then .error "text config: p_long out of range"
  else if c.iShort < 1 || c.iShort > 10 then .error "text config: i_short out of range"
  else if c.iLong < 1 || c.iLong > 10 then .error "text config: i_long out of range"
  else if c.threshold < 0 then .error "text config: threshold must be nonnegative"
  else .ok ()

/-- A raw scoring_config JSONB blob as seen by ParseScoringConfig.  The JSON
layer is embedded structurally: a blob either carries a radio table, a text
rule, or is malformed (empty JSON, unparseable JSON, or an unknown type
discriminator - all the cases in which json.Unmarshal or the type switch
fails before validation). -/
inductive RawScoringConfig
  | radio (cfg : RadioConfig)
  | text (cfg : TextConfig)
  | malformed (msg : String)
deriving DecidableEq, Repr

/-- The parsed discriminated union ScoringConfig (config.go): exactly one of
the two branches, already validated. -/
inductive ScoringConfig
  | radio (cfg : RadioConfig)
  | text (cfg : TextConfig)
deriving DecidableEq, Repr

/-- ParseScoringConfig: reject malformed blobs, then run the branch's own
Validate; only a validated config is returned. -/
def ParseScoringConfig : RawScoringConfig → Except String ScoringConfig
  | .malformed msg => .error ("scoring config: " ++ msg)
  | .radio cfg =>
    match cfg.validate with
    | .error e => .error e
    | .ok _ => .ok (.radio cfg)
  | .text cfg =>
    match cfg.validate with
    | .error e => .error e
    | .ok _ => .ok (.text cfg)

/-- Whether a raw blob parses and validates (used to state ComputeRisks'
error condition decidably). -/
def parses (raw : RawScoringConfig) : Bool :=
  match ParseScoringConfig raw with
  | .ok _ => true
  | .error _ => false

/-! Embedding of internal/scoring/scorer.go. -/

/-- Tier thresholds from scorer.go. -/
def highImpactThreshold : Int := 7

/-- Probability threshold from scorer.go. -/
def highProbThreshold : Int := 6

/-- The four-bucket risk classification. -/
inductive RiskTier
  | watch
  | red
  | manage
  | ignore
deriving DecidableEq, Repr

/-- clamp constrains a score value to [1, 10]. -/
def clamp (v : Int) : Int :=
  if v < 1 then 1
  else if v > 10 then 10
  else v

/-- strings.TrimSpace: drop leading and trailing whitespace.  Embedded over
the character list so that it evaluates inside the kernel; agrees with Go
on ASCII whitespace. -/
def trimSpace (s : String) : String :=
  ⟨((s.data.dropWhile Char.isWhitespace).reverse.dropWhile Char.isWhitespace).reverse⟩

/-- The radio lookup loop of ScoreAnswer: walk the option list, and on the
first option equal to the (already trimmed) answer return the same-indexed
probability/impact scores.  The parallel arrays are consumed in lockstep;
the `getD 0` default stands for Go's panicking index, unreachable because
ParseScoringConfig guarantees equal lengths. -/
def radioLookup : List String → List Int → List Int → String → Option (Int × Int)
  | [], _, _, _ => none
  | opt :: opts, ps, is, ans =>
    if opt = ans then some (ps.getD 0 0, is.getD 0 0)
    else radioLookup opts ps.tail is.tail ans

/-- ScoreAnswer: parse the raw config, trim the answer, then score.  Radio:
first matching option's pair, clamped, and (1, 1) when nothing matches.
Text: the long pair when the trimmed answer's byte length strictly exceeds
the threshold, the short pair otherwise.  Go's len() is UTF-8 byte length,
hence `String.utf8ByteSize`. -/
def ScoreAnswer (rawConfig : RawScoringConfig) (answer : String) : Except String (Int × Int) :=
  match ParseScoringConfig rawConfig with
  | .error e => .error ("ScoreAnswer: " ++ e)
  | .ok cfg =>
    let ans := trimSpace answer
    match cfg with
    | .radio rc =>
      match radioLookup rc.opts rc.pScores rc.iScores ans with
      | some (p, i) => .ok (clamp p, clamp i)
      | none => .ok (1, 1)
    | .text tc =>
      if (ans.utf8ByteSize : Int) > tc.threshold then .ok (clamp tc.pLong, clamp tc.iLong)
      else .ok (clamp tc.pShort, clamp tc.iShort)

/-- GetTier: quadrant classification against the fixed thresholds. -/
def GetTier (p i : Int) : RiskTier :=
  let highImpact := i ≥ highImpactThreshold
  let highProb := p ≥ highProbThreshold
  if highImpact ∧ highProb then .watch
  else if highImpact ∧ ¬highProb then .red
  else if ¬highImpact ∧ highProb then .manage
  else .ignore

/-- ScoredRisk: the fully computed output for a single question.  Defaults
are the Go zero values. -/
structure ScoredRisk where
  questionID : String := ""
  rank : Int := 0
  riskName : String := ""
  riskDesc : String := ""
  hedge : String := ""
  sectionLabel : String := ""
  p : Int := 0
  i : Int := 0
  score : Int := 0
  tier : RiskTier := .ignore
deriving DecidableEq, Repr

/-- AnswerRow: the slice of a GetAnswersBySession row that scoring needs. -/
structure AnswerRow where
  questionID : String := ""
  answerText : String := ""
  sectionTitle : String := ""
  riskName : String := ""
  riskDesc : String := ""
  hedge : String := ""
  scoringConfig : RawScoringConfig := .malformed ""
  isScoring : Bool := false
deriving DecidableEq, Repr

/-- The scoring loop of ComputeRisks: skip rows with IsScoring=false, score
the rest in order, and stop at the first row whose config fails to parse. -/
def scoreRows : List AnswerRow → Except String (List ScoredRisk)
  | [] => .ok []
  | row :: rest =>
    if !row.isScoring then scoreRows rest
    else
      match ScoreAnswer row.scoringConfig row.answerText with
      | .error e => .error ("question " ++ row.questionID ++ ": " ++ e)
      | .ok (p, i) =>
        match scoreRows rest with
        | .error e => .error e
        | .ok tail =>
          .ok ({ questionID := row.questionID
                 riskName := row.riskName
                 riskDesc := row.riskDesc
                 hedge := row.hedge
                 sectionLabel := row.sectionTitle
                 p := p
                 i := i
                 score := p * i
                 tier := GetTier p i } :: tail)

/-- The sort.Slice comparator of ComputeRisks, as a total preorder: score
descending, exact score ties broken by question identifier ascending.
sort.Slice is an unstable sort; mergeSort with this reflexive closure of
the Go strict comparator realises one admissible outcome (and the unique
one whenever no two rows agree on both score and question id). -/
def riskLE (a b : ScoredRisk) : Bool :=
  decide (a.score > b.score) || (decide (a.score = b.score) && decide (a.questionID ≤ b.questionID))

/-- The rank-assignment loop of ComputeRisks: 1-indexed positions after the
sort, written as a recursion carrying the next rank. -/
def assignRanks (n : Int) : List ScoredRisk → List ScoredRisk
  | [] => []
  | r :: rest => { r with rank := n } :: assignRanks (n + 1) rest

/-- ComputeRisks: score all answers for a session and return a sorted,
ranked list. -/
def ComputeRisks (rows : List AnswerRow) : Except String (List ScoredRisk) :=
  match scoreRows rows with
  | .error e => .error e
  | .ok risks => .ok (assignRanks 1 (risks.mergeSort riskLE))

/-- OverallScore: Go computes int(float64(total)/float64(len(risks)) + 0.5)
and returns 0 for an empty slice.  On every input the pipeline can produce
(a non-negative total and fewer than 2^40 risks) the float64 computation is
exact and equals the truncating integer division below; `Int.tdiv` is Go's
toward-zero conversion. -/
def OverallScore (risks : List ScoredRisk) : Int :=
  if risks.length = 0 then 0
  else
    let total := (risks.map ScoredRisk.score).sum
    Int.tdiv (2 * total + risks.length) (2 * risks.length)

/-- CriticalCount: number of risks in the Watch tier. -/
def CriticalCount (risks : List ScoredRisk) : Int :=
  ((risks.filter (fun r => r.tier = .watch)).length : Int)

/-- FilterByTier: order-preserving subset of the risks in any of the given
tiers. -/
def FilterByTier (risks : List ScoredRisk) (tiers : List RiskTier) : List ScoredRisk :=
  risks.filter (fun r => tiers.contains r.tier)

end Scoring

namespace Store

/-!
Embedding of internal/store (store.go, sessions.go, reports part) together
with the sqlc queries it issues (sql/queries file) over the schema
(sql/schema.sql).  The relational state is a `DB` record; UUIDs are `Nat`
identifiers drawn from per-table counters; SQL NULL columns are `Option`.
`withTx` semantics: the callback runs on the state and any error (sentinel
included) rolls the state back to its pre-transaction value.  Failures of
the underlying connection are injected through a `Faults` record where a
claim needs them.
-/

/-- payment_status enum. -/
inductive PaymentStatus
  | pending
  | paid
  | failed
  | refunded
deriving DecidableEq, Repr

/-- report_status enum. -/
inductive ReportStatus
  | draft
  | processing
  | ready
  | error
deriving DecidableEq, Repr

/-- A sessions row (the columns the store operations touch). -/
structure Session where
  id : Nat := 0
  anonToken : String := ""
  paymentStatus : PaymentStatus := .pending
  stripeCustomerID : Option String := none
  stripePaymentIntent : Option String := none
  email : Option String := none
  bizName : Option String := none
deriving DecidableEq, Repr

/-- A reports row (the columns the store operations touch).  The risks_json
snapshot keeps the serialised ScoredRisk list itself rather than opaque
bytes. -/
structure Report where
  id : Nat := 0
  sessionID : Nat := 0
  status : ReportStatus := .draft
  overallScore : Option Int := none
  criticalCount : Option Int := none
  risksJson : Option (List Scoring.ScoredRisk) := none
  executiveSummary : Option String := none
  topPriorityHtml : Option String := none
  errorMessage : Option String := none
  accessToken : String := ""
deriving DecidableEq, Repr

/-- A risk_results row. -/
structure RiskResult where
  id : Nat := 0
  reportID : Nat := 0
  questionID : String := ""
  rank : Int := 0
  riskName : String := ""
  riskDesc : String := ""
  probability : Int := 0
  impact : Int := 0
  score : Int := 0
  tier : Scoring.RiskTier := .ignore
  hedge : String := ""
  aiHedge : Option String := none
  sectionLabel : String := ""
deriving DecidableEq, Repr

/-- The relational state. -/
structure DB where
  sessions : List Session := []
  reports : List Report := []
  riskResults : List RiskResult := []
  nextReportID : Nat := 0
  nextRiskResultID : Nat := 0
deriving DecidableEq, Repr

/-- Query-level failures: sql.ErrNoRows from a :one query, or a uniqueness
violation. -/
inductive QErr
  | noRows
  | uniqueViolation
deriving DecidableEq, Repr

/-- Go's sql.NullString written from a string that is Valid only when
non-empty (the pattern used for customer id, email, summary fields). -/
def nullStringOf (s : String) : Option String :=
  if s = "" then none else some s

/-- MarkSessionPaid: UPDATE sessions SET payment_status='paid' WHERE
stripe_payment_intent = $1 RETURNING *; sql.ErrNoRows when nothing
matched. -/
def MarkSessionPaid (db : DB) (pi_ : String) : DB × Except QErr Session :=
  match db.sessions.find? (fun s => s.stripePaymentIntent = some pi_) with
  | none => (db, .error .noRows)
  | some s =>
    ({ db with
        sessions := db.sessions.map fun t =>
          if t.stripePaymentIntent = some pi_ then { t with paymentStatus := .paid } else t },
      .ok { s with paymentStatus := .paid })

/-- GetSessionByID: SELECT * FROM sessions WHERE id = $1 LIMIT 1. -/
def GetSessionByID (db : DB) (sid : Nat) : Except QErr Session :=
  match db.sessions.find? (fun s => s.id = sid) with
  | none => .error .noRows
  | some s => .ok s

/-- AttachStripeCustomer parameters (sqlc-generated params struct). -/
structure AttachStripeCustomerParams where
  id : Nat
  stripeCustomerID : Option String
  stripePaymentIntent : Option String
  email : Option String
deriving DecidableEq, Repr

/-- AttachStripeCustomer: UPDATE sessions SET stripe_customer_id,
stripe_payment_intent, email WHERE id = $1 RETURNING *. -/
def AttachStripeCustomer (db : DB) (p : AttachStripeCustomerParams) :
    DB × Except QErr Session :=
  match db.sessions.find? (fun s => s.id = p.id) with
  | none => (db, .error .noRows)
  | some s =>
    ({ db with
        sessions := db.sessions.map fun t =>
          if t.id = p.id then
            { t with
                stripeCustomerID := p.stripeCustomerID
                stripePaymentIntent := p.stripePaymentIntent
                email := p.email }
          else t },
      .ok { s with
              stripeCustomerID := p.stripeCustomerID
              stripePaymentIntent := p.stripePaymentIntent
              email := p.email })

/-- GetReportBySessionID: SELECT * FROM reports WHERE session_id = $1
LIMIT 1. -/
def GetReportBySessionID (db : DB) (sid : Nat) : Except QErr Report :=
  match db.reports.find? (fun r => r.sessionID = sid) with
  | none => .error .noRows
  | some r => .ok r

/-- CreateReport: INSERT INTO reports (session_id) VALUES ($1) RETURNING *;
the row starts in draft status with a fresh identifier. -/
def CreateReport (db : DB) (sid : Nat) : DB × Report :=
  let r : Report := { id := db.nextReportID, sessionID := sid }
  ({ db with reports := db.reports ++ [r], nextReportID := db.nextReportID + 1 }, r)

/-- SetReportProcessing: UPDATE reports SET status='processing' WHERE
id = $1 RETURNING *. -/
def SetReportProcessing (db : DB) (rid : Nat) : DB × Except QErr Report :=
  match db.reports.find? (fun r => r.id = rid) with
  | none => (db, .error .noRows)
  | some r =>
    ({ db with
        reports := db.reports.map fun t =>
          if t.id = rid then { t with status := .processing } else t },
      .ok { r with status := .processing })

/-- InsertRiskResult parameters (sqlc-generated params struct). -/
structure InsertRiskResultParams where
  reportID : Nat
  questionID : String
  rank : Int
  riskName : String
  riskDesc : String
  probability : Int
  impact : Int
  score : Int
  tier : Scoring.RiskTier
  hedge : String
  sectionLabel : String
deriving DecidableEq, Repr

/-- InsertRiskResult: INSERT INTO risk_results ... RETURNING *; the schema's
UNIQUE (report_id, question_id) makes a duplicate insert fail. -/
def InsertRiskResult (db : DB) (p : InsertRiskResultParams) :
    DB × Except QErr RiskResult :=
  if db.riskResults.any (fun r => r.reportID = p.reportID && r.questionID = p.questionID) then
    (db, .error .uniqueViolation)
  else
    let row : RiskResult :=
      { id := db.nextRiskResultID
        reportID := p.reportID
        questionID := p.questionID
        rank := p.rank
        riskName := p.riskName
        riskDesc := p.riskDesc
        probability := p.probability
        impact := p.impact
        score := p.score
        tier := p.tier
        hedge := p.hedge
        aiHedge := none
        sectionLabel := p.sectionLabel }
    ({ db with
        riskResults := db.riskResults ++ [row]
        nextRiskResultID := db.nextRiskResultID + 1 },
      .ok row)

/-- SetAIHedge: UPDATE risk_results SET ai_hedge = $2 WHERE id = $1
RETURNING *. -/
def SetAIHedge (db : DB) (rowID : Nat) (hedge : Option String) :
    DB × Except QErr RiskResult :=
  match db.riskResults.find? (fun r => r.id = rowID) with
  | none => (db, .error .noRows)
  | some r =>
    ({ db with
        riskResults := db.riskResults.map fun t =>
          if t.id = rowID then { t with aiHedge := hedge } else t },
      .ok { r with aiHedge := hedge })

/-- FinalizeReport: UPDATE reports SET status='ready', scores, snapshot,
summary fields WHERE id = $1 RETURNING *. -/
def FinalizeReport (db : DB) (rid : Nat) (overall critical : Int)
    (snapshot : List Scoring.ScoredRisk) (summary topHtml : String) :
    DB × Except QErr Report :=
  let upd : Report → Report := fun t =>
    { t with
        status := .ready
        overallScore := some overall
        criticalCount := some critical
        risksJson := some snapshot
        executiveSummary := nullStringOf summary
        topPriorityHtml := nullStringOf topHtml }
  match db.reports.find? (fun r => r.id = rid) with
  | none => (db, .error .noRows)
  | some r =>
    ({ db with reports := db.reports.map fun t => if t.id = rid then upd t else t },
      .ok (upd r))

/-- SetReportError: UPDATE reports SET status='error', error_message = $2
WHERE id = $1 RETURNING *. -/
def SetReportError (db : DB) (rid : Nat) (msg : String) : DB × Except QErr Report :=
  let upd : Report → Report := fun t =>
    { t with status := .error, errorMessage := some msg }
  match db.reports.find? (fun r => r.id = rid) with
  | none => (db, .error .noRows)
  | some r =>
    ({ db with reports := db.reports.map fun t => if t.id = rid then upd t else t },
      .ok (upd r))

/-- Injected connection-level failures, used to exercise the rollback
paths that a live database would produce. -/
structure Faults where
  createReportFails : Bool := false
deriving DecidableEq, Repr

/-- Caller-visible outcome of InitialiseReport: success, the "already
exists" sentinel carrying the existing report, or a true error. -/
inductive InitResult
  | ok (r : Report)
  | alreadyExists (r : Report)
  | failed (msg : String)
deriving DecidableEq, Repr

/-- InitialiseReport (store, reports part): inside one serializable
transaction, mark the owning session paid by payment-intent reference,
check for an existing report row (sentinel on hit), otherwise create a
draft report.  Any error - the sentinel included - rolls the whole
transaction back to the input state. -/
def InitialiseReport (fl : Faults) (db : DB) (stripePaymentIntent : String) :
    DB × InitResult :=
  match MarkSessionPaid db stripePaymentIntent with
  | (_, .error _) => (db, .failed "InitialiseReport: mark session paid")
  | (db1, .ok session) =>
    match GetReportBySessionID db1 session.id with
    | .ok existing => (db, .alreadyExists existing)
    | .error _ =>
      if fl.createReportFails then (db, .failed "InitialiseReport: create report")
      else
        let (db2, created) := CreateReport db1 session.id
        (db2, .ok created)

/-- AttachPaymentIntent parameters (sessions.go). -/
structure AttachPaymentIntentParams where
  sessionID : Nat
  stripeCustomerID : String
  stripePaymentIntent : String
  email : String
deriving DecidableEq, Repr

/-- Caller-visible outcome of AttachPaymentIntent: success, the "already
attached" sentinel carrying the existing session row, or a true error. -/
inductive AttachResult
  | ok (s : Session)
  | alreadyAttached (s : Session)
  | failed (msg : String)
deriving DecidableEq, Repr

/-- AttachPaymentIntent (sessions.go): inside one serializable transaction,
re-read the session; if a non-empty payment-intent reference is already
present, abort with the sentinel and the existing row; otherwise write the
customer id (NULL when empty), the payment intent (always set) and the
email (NULL when empty).  Errors and the sentinel roll back. -/
def AttachPaymentIntent (db : DB) (p : AttachPaymentIntentParams) :
    DB × AttachResult :=
  match GetSessionByID db p.sessionID with
  | .error _ => (db, .failed "AttachPaymentIntent: get session")
  | .ok existing =>
    -- Valid && String != "" on a NullString: the column holds some non-empty s.
    if existing.stripePaymentIntent.getD "" ≠ "" then
      (db, .alreadyAttached existing)
    else
      match AttachStripeCustomer db
          { id := p.sessionID
            stripeCustomerID := nullStringOf p.stripeCustomerID
            stripePaymentIntent := some p.stripePaymentIntent
            email := nullStringOf p.email } with
      | (_, .error _) => (db, .failed "AttachPaymentIntent: attach stripe customer")
      | (db1, .ok updated) => (db1, .ok updated)

/-- PersistScoredReport parameters.  Go's AIHedges map[string]string is
embedded as an association list with distinct keys in some iteration
order; map assignment is `mapInsert` below. -/
structure PersistScoredReportParams where
  reportID : Nat
  risks : List Scoring.ScoredRisk
  aiHedges : List (String × String)
  executiveSummary : String
  topPriorityHTML : String

/-- Go map assignment m[k] = v: replaces any existing binding of k. -/
def mapInsert (m : List (String × Nat)) (k : String) (v : Nat) : List (String × Nat) :=
  (k, v) :: m.filter (fun kv => kv.1 ≠ k)

/-- The insert loop of PersistScoredReport step 2: one risk_results row per
scored risk, recording question id to generated row id in resultIDs. -/
def insertRisks (rid : Nat) : List Scoring.ScoredRisk → DB → List (String × Nat) →
    DB × Except QErr (List (String × Nat))
  | [], db, m => (db, .ok m)
  | risk :: rest, db, m =>
    match InsertRiskResult db
        { reportID := rid
          questionID := risk.questionID
          rank := risk.rank
          riskName := risk.riskName
          riskDesc := risk.riskDesc
          probability := risk.p
          impact := risk.i
          score := risk.score
          tier := risk.tier
          hedge := risk.hedge
          sectionLabel := risk.sectionLabel } with
    | (db1, .error e) => (db1, .error e)
    | (db1, .ok row) => insertRisks rid rest db1 (mapInsert m risk.questionID row.id)

/-- The AI-hedge loop of PersistScoredReport step 3: for each map entry,
look the question id up in resultIDs - continue when absent (a partial AI
response must not abort the report) or when the hedge text is empty -
otherwise write the override. -/
def applyAIHedges (db : DB) (m : List (String × Nat)) :
    List (String × String) → DB × Except QErr Unit
  | [] => (db, .ok ())
  | (qid, hedge) :: rest =>
    match m.lookup qid with
    | none => applyAIHedges db m rest
    | some rowID =>
      if hedge = "" then applyAIHedges db m rest
      else
        match SetAIHedge db rowID (some hedge) with
        | (_, .error e) => (db, .error e)
        | (db1, .ok _) => applyAIHedges db1 m rest

/-- Caller-visible outcome of PersistScoredReport. -/
inductive PersistResult
  | ok (r : Report)
  | failed (msg : String)
deriving DecidableEq, Repr

/-- PersistScoredReport: inside one serializable transaction, claim the
report (status=processing), insert one risk_results row per risk, apply
the AI-hedge overrides, then finalize (status=ready with aggregates and
snapshot).  Any failure rolls the entire transaction back. -/
def PersistScoredReport (db : DB) (p : PersistScoredReportParams) :
    DB × PersistResult :=
  match SetReportProcessing db p.reportID with
  | (_, .error _) => (db, .failed "PersistScoredReport: set processing")
  | (db1, .ok _) =>
    match insertRisks p.reportID p.risks db1 [] with
    | (_, .error _) => (db, .failed "PersistScoredReport: insert risk")
    | (db2, .ok resultIDs) =>
      match applyAIHedges db2 resultIDs p.aiHedges with
      | (_, .error _) => (db, .failed "PersistScoredReport: set AI hedge")
      | (db3, .ok _) =>
        match FinalizeReport db3 p.reportID (Scoring.OverallScore p.risks)
            (Scoring.CriticalCount p.risks) p.risks p.executiveSummary p.topPriorityHTML with
        | (_, .error _) => (db, .failed "PersistScoredReport: finalize report")
        | (db4, .ok finalised) => (db4, .ok finalised)

/-- MarkReportFailed: single non-transactional write setting status=error
with a message. -/
def MarkReportFailed (db : DB) (rid : Nat) (reason : String) :
    DB × Except QErr Report :=
  SetReportError db rid reason

end Store

namespace AI

/-!
Embedding of internal/ai: the Hedger capability, the DeepSeek-backed client
and the fallback composite.  A Hedger value is embedded as its observable
behaviour, a function from the risk list to a result or an error; a nil
interface value is `none`, and calling GenerateHedges through a nil
interface is a runtime panic, which the execution model records as an
explicit outcome.  The model also counts how many times each wrapped
implementation is invoked, so that "never invokes the secondary" is a
provable statement rather than a side remark.
-/

/-- HedgeResult: narratives keyed by question id (a Go map, embedded as an
association list), executive summary and top-priority block.  Defaults are
the Go zero value. -/
structure HedgeResult where
  hedges : List (String × String) := []
  executiveSummary : String := ""
  topPriorityHTML : String := ""
deriving DecidableEq, Repr

/-- Errors crossing the Hedger interface.  `primaryNoSecondary` is the
fmt.Errorf("ai: primary failed and no secondary configured: %w", err)
wrapper of fallback.go, keeping its cause visible the way errors.Is
does. -/
inductive AIError
  | provider (msg : String)
  | primaryNoSecondary (cause : AIError)
deriving DecidableEq, Repr

/-- A (non-nil) Hedger implementation, reduced to its behaviour. -/
def HedgerFn : Type :=
  List Scoring.ScoredRisk → Except AIError HedgeResult

/-- What a GenerateHedges call on the composite can do: return a result,
return an error, or panic from a method call through a nil interface. -/
inductive GenerateOutcome
  | ok (r : HedgeResult)
  | err (e : AIError)
  | nilPanic
deriving DecidableEq, Repr

/-- Lift a wrapped implementation's return value into an outcome. -/
def outcomeOfResult : Except AIError HedgeResult → GenerateOutcome
  | .ok r => .ok r
  | .error e => .err e

/-- One observed execution of the composite: the outcome plus how many
times the primary and the secondary implementations were invoked. -/
structure GenerateTrace where
  outcome : GenerateOutcome
  primaryCalls : Nat
  secondaryCalls : Nat
deriving DecidableEq, Repr

/-- fallbackHedger: the two wrapped capabilities, either possibly nil.  The
logger only logs and is dropped. -/
structure FallbackHedger where
  primary : Option HedgerFn
  secondary : Option HedgerFn

/-- NewFallbackHedger (fallback part of internal/ai). -/
def NewFallbackHedger (primary secondary : Option HedgerFn) : FallbackHedger :=
  { primary := primary, secondary := secondary }

/-- The trailing `return f.secondary.GenerateHedges(ctx, risks)`: calling
through a nil interface panics; otherwise the secondary runs once. -/
def callSecondary (f : FallbackHedger) (risks : List Scoring.ScoredRisk)
    (primaryCalls : Nat) : GenerateTrace :=
  match f.secondary with
  | none => { outcome := .nilPanic, primaryCalls := primaryCalls, secondaryCalls := 0 }
  | some sf =>
    { outcome := outcomeOfResult (sf risks)
      primaryCalls := primaryCalls
      secondaryCalls := 1 }

/-- GenerateHedges on the composite: try the primary when present; on its
success return immediately; on its failure return a wrapping error when no
secondary is configured, else fall through to the secondary - which is
also where a nil primary goes directly. -/
def GenerateHedges (f : FallbackHedger) (risks : List Scoring.ScoredRisk) :
    GenerateTrace :=
  match f.primary with
  | some pf =>
    match pf risks with
    | .ok result => { outcome := .ok result, primaryCalls := 1, secondaryCalls := 0 }
    | .error e =>
      match f.secondary with
      | none =>
        { outcome := .err (.primaryNoSecondary e), primaryCalls := 1, secondaryCalls := 0 }
      | some _ => callSecondary f risks 1
  | none => callSecondary f risks 0

/-- One observed execution of the DeepSeek client: its return value plus
how many HTTP calls it made. -/
structure DeepSeekTrace where
  result : Except AIError HedgeResult
  apiCalls : Nat

/-- GenerateHedges on the DeepSeek-backed client (deepseek part of
internal/ai): an empty risk list short-circuits to the zero HedgeResult
without touching the network; otherwise the prompt is sent and the reply
parsed, abstracted here as the `api` function. -/
def deepseekGenerateHedges (api : List Scoring.ScoredRisk → Except AIError HedgeResult)
    (risks : List Scoring.ScoredRisk) : DeepSeekTrace :=
  if risks.isEmpty then { result := .ok {}, apiCalls := 0 }
  else { result := api risks, apiCalls := 1 }

end AI

namespace Worker

/-!
Embedding of the Runner's retry loop (internal/worker/runner.go,
runWithRetry).  One execution is determined by the outcome of each
1-indexed attempt of the Job and by whether the shutdown cancellation
signal interrupts the backoff select after each failed attempt.  The
constructor guard in NewRunner forces MaxRetries >= 1, so the claims carry
that hypothesis.
-/

/-- What one attempt of job.Run returned. -/
inductive AttemptResult
  | success
  | failure (msg : String)
deriving DecidableEq, Repr

/-- How one runWithRetry execution ends: the job succeeded at some attempt;
all attempts ran and failed and MarkReportFailed was invoked with the last
error message; or the cancellation signal won the backoff select after the
given attempt and the function returned with no mark-failed write. -/
inductive RunOutcome
  | jobCompleted (attempt : Nat)
  | markedFailed (lastErrMsg : String)
  | cancelledDuringBackoff (attempt : Nat)
deriving DecidableEq, Repr

/-- The loop body from the current attempt on, with `remaining` counting the
attempts left after this one (structural fuel; the loop bound is
MaxRetries). -/
def runFrom (outcome : Nat → AttemptResult) (cancel : Nat → Bool) (attempt : Nat) :
    Nat → RunOutcome
  | 0 =>
    -- attempt == MaxRetries: a failure falls out of the loop into the
    -- mark-failed write, which runs under its own bounded timeout.
    match outcome attempt with
    | .success => .jobCompleted attempt
    | .failure msg => .markedFailed msg
  | remaining + 1 =>
    match outcome attempt with
    | .success => .jobCompleted attempt
    | .failure _ =>
      -- attempt < MaxRetries: backoff select between ctx.Done() and the
      -- timer; cancellation returns immediately, skipping the mark.
      if cancel attempt then .cancelledDuringBackoff attempt
      else runFrom outcome cancel (attempt + 1) remaining

/-- runWithRetry: attempts run from 1 up to maxRetries. -/
def runWithRetry (maxRetries : Nat) (outcome : Nat → AttemptResult)
    (cancel : Nat → Bool) : RunOutcome :=
  runFrom outcome cancel 1 (maxRetries - 1)

end Worker

/-! Concrete data used to instantiate the theorems below. -/

/-- A session that already carries payment intent pi_1. -/
def sessionPi1 : Store.Session :=
  { id := 1, anonToken := "tok", stripePaymentIntent := some "pi_1", email := some "a@b.c" }

/-- The (single) report row owned by session 1. -/
def reportOfSession1 : Store.Report :=
  { id := 7, sessionID := 1, accessToken := "acc" }

/-- State in which session 1 is awaiting payment and its report already
exists (a duplicate webhook delivery is in flight). -/
def dbWithReport : Store.DB :=
  { sessions := [sessionPi1], reports := [reportOfSession1], nextReportID := 8 }

/-- State in which session 1 has no report yet. -/
def dbNoReport : Store.DB :=
  { sessions := [sessionPi1], nextReportID := 8 }

/-- A session with no payment intent attached yet. -/
def sessionFresh : Store.Session :=
  { id := 2, anonToken := "tok2" }

/-- State holding only the fresh session. -/
def dbFreshSession : Store.DB :=
  { sessions := [sessionFresh] }

/-- Risk list with composite scores 81, 30, 9. -/
def risksMean40 : List Scoring.ScoredRisk :=
  [{ questionID := "q1", score := 81 }, { questionID := "q2", score := 30 },
    { questionID := "q3", score := 9 }]

/-- Three answer rows: a radio answer, a non-scoring context row, and a text
answer, all with valid configs. -/
def rowsDemo : List Scoring.AnswerRow :=
  [{ questionID := "q_a", answerText := "yes", isScoring := true,
     scoringConfig := .radio { opts := ["yes", "no"], pScores := [2, 9], iScores := [3, 8] } },
   { questionID := "q_b", answerText := "some context", isScoring := false },
   { questionID := "q_c", answerText := "long answer here", isScoring := true,
     scoringConfig := .text { threshold := 5, pShort := 2, pLong := 6, iShort := 2, iLong := 8 } }]

/-- A state holding a single draft report (id 0, session 0). -/
def dbOneReport : Store.DB :=
  { reports := [{ id := 0, sessionID := 0 }], nextReportID := 1 }

/-- Persist parameters whose AI-hedge map holds an empty-text override for
the (scored) question q1. -/
def paramsEmptyHedge : Store.PersistScoredReportParams :=
  { reportID := 0, risks := [{ questionID := "q1", p := 2, i := 3, score := 6 }],
    aiHedges := [("q1", "")], executiveSummary := "", topPriorityHTML := "" }

/-- Persist parameters with one applicable override, one override for an
absent question, and one empty-text override. -/
def paramsMixedHedges : Store.PersistScoredReportParams :=
  { reportID := 0,
    risks := [{ questionID := "q1", p := 2, i := 3, score := 6 },
              { questionID := "q2", p := 9, i := 8, score := 72 }],
    aiHedges := [("q1", "ai text"), ("q_gone", "orphan"), ("q2", "")],
    executiveSummary := "s", topPriorityHTML := "t" }

-- ### THEOREMS ###

/-! Generic helper lemmas shared by several claims. -/

/-- Updating, by key, the row an in-list search found: the search then finds
the updated row. -/
theorem find?_map_update {α : Type} (key : α → Nat) (f : α → α) (k : Nat)
    (hk : ∀ t, key (f t) = key t) :
    ∀ (l : List α) (s : α), l.find? (fun t => key t = k) = some s →
      (l.map fun t => if key t = k then f t else t).find? (fun t => key t = k)
        = some (f s) := by
  intro l
  induction l with
  | nil => intro s h; simp at h
  | cons a l ih =>
    intro s h
    by_cases ha : key a = k
    · simp [List.find?_cons, ha] at h
      cases h
      simp [List.find?_cons, ha, hk]
    · simp [List.find?_cons, ha] at h
      simp [List.find?_cons, ha, ih s h]

/-! Claim C7 - fallback hedger failover behaviour. -/

/-- C7: for every risk list and configured primary/secondary pair, the
fallback hedger returns the primary's result without invoking the
secondary when the primary succeeds; on primary failure with a secondary
configured it invokes the secondary exactly once and returns its result;
on primary failure with no secondary it returns an error whose cause is
the primary's error; with no primary it delegates directly to the
secondary. -/
theorem fallbackHedger_failover (f : AI.FallbackHedger) (risks : List Scoring.ScoredRisk) :
    (∀ pf r, f.primary = some pf → pf risks = .ok r →
      AI.GenerateHedges f risks =
        { outcome := .ok r, primaryCalls := 1, secondaryCalls := 0 }) ∧
    (∀ pf e sf, f.primary = some pf → pf risks = .error e → f.secondary = some sf →
      AI.GenerateHedges f risks =
        { outcome := AI.outcomeOfResult (sf risks), primaryCalls := 1, secondaryCalls := 1 }) ∧
    (∀ pf e, f.primary = some pf → pf risks = .error e → f.secondary = none →
      AI.GenerateHedges f risks =
        { outcome := .err (.primaryNoSecondary e), primaryCalls := 1, secondaryCalls := 0 }) ∧
    (∀ sf, f.primary = none → f.secondary = some sf →
      AI.GenerateHedges f risks =
        { outcome := AI.outcomeOfResult (sf risks), primaryCalls := 0, secondaryCalls := 1 }) := by
  refine ⟨?_, ?_, ?_, ?_⟩
  · intro pf r hp hr
    simp [AI.GenerateHedges, hp, hr]
  · intro pf e sf hp he hs
    simp [AI.GenerateHedges, AI.callSecondary, hp, he, hs]
  · intro pf e hp he hs
    simp [AI.GenerateHedges, hp, he, hs]
  · intro sf hp hs
    simp [AI.GenerateHedges, AI.callSecondary, hp, hs]

/-- Witness for C7: a concrete succeeding primary next to an idle
secondary. -/
theorem fallbackHedger_failover_witness :
    AI.GenerateHedges
        (AI.NewFallbackHedger (some fun _ => .ok { executiveSummary := "primary" })
          (some fun _ => .ok { executiveSummary := "secondary" })) []
      = { outcome := .ok { executiveSummary := "primary" }, primaryCalls := 1,
          secondaryCalls := 0 } :=
  (fallbackHedger_failover
      (AI.NewFallbackHedger (some fun _ => .ok { executiveSummary := "primary" })
        (some fun _ => .ok { executiveSummary := "secondary" })) []).1
    _ _ rfl rfl

/-! Claim C10 - nil-hedger panic condition. -/

/-- C10: a GenerateHedges call on the composite panics with a nil
dereference exactly when both the primary and the secondary are nil; with
at least one non-nil hedger (in particular a failing primary and nil
secondary) no call panics. -/
theorem fallbackHedger_nil_panic_iff (primary secondary : Option AI.HedgerFn)
    (risks : List Scoring.ScoredRisk) :
    (AI.GenerateHedges (AI.NewFallbackHedger primary secondary) risks).outcome
        = .nilPanic
      ↔ primary = none ∧ secondary = none := by
  cases primary with
  | none =>
    cases secondary with
    | none => simp [AI.NewFallbackHedger, AI.GenerateHedges, AI.callSecondary]
    | some sf =>
      simp only [AI.NewFallbackHedger, AI.GenerateHedges, AI.callSecondary]
      cases sf risks <;> simp [AI.outcomeOfResult]
  | some pf =>
    cases he : pf risks with
    | ok r => simp [AI.NewFallbackHedger, AI.GenerateHedges, he]
    | error e =>
      cases secondary with
      | none => simp [AI.NewFallbackHedger, AI.GenerateHedges, he]
      | some sf =>
        simp only [AI.NewFallbackHedger, AI.GenerateHedges, he, AI.callSecondary]
        cases sf risks <;> simp [AI.outcomeOfResult]

/-! Claim C8 - empty risk list through the hedging chain. -/

/-- C8 counterexample: the composite fallback hedger does not short-circuit
on the empty risk list - it invokes the primary implementation (here the
provider-conformant DeepSeek client, which itself short-circuits), so
"without invoking either implementation" fails on this input. -/
theorem fallbackHedger_empty_delegates :
    (AI.GenerateHedges
        (AI.NewFallbackHedger
          (some fun rs =>
            (AI.deepseekGenerateHedges (fun _ => .error (.provider "down")) rs).result)
          none) []).primaryCalls = 1 := rfl

/-- C8 amended: the underlying provider client short-circuits on empty
input - the DeepSeek client returns the empty HedgeResult with zero API
calls - and the composite, which merely delegates, therefore still yields
the empty result (after one delegation to the primary) for the empty risk
list. -/
theorem fallbackHedger_empty_via_provider
    (api : List Scoring.ScoredRisk → Except AI.AIError AI.HedgeResult)
    (secondary : Option AI.HedgerFn) :
    AI.deepseekGenerateHedges api [] = { result := .ok {}, apiCalls := 0 } ∧
    AI.GenerateHedges
        (AI.NewFallbackHedger
          (some fun rs => (AI.deepseekGenerateHedges api rs).result) secondary) []
      = { outcome := .ok {}, primaryCalls := 1, secondaryCalls := 0 } :=
  ⟨rfl, rfl⟩

/-! Claim C2 - retry exhaustion and the mark-failed write. -/

/-- C2 counterexample: when the shutdown signal wins the backoff select
after a failed attempt, runWithRetry returns at once - the remaining
attempts never run and MarkReportFailed is never invoked, so the
mark-failed write is not "still attempted" in that case. -/
theorem runWithRetry_cancelled_backoff_skips_mark :
    Worker.runWithRetry 3 (fun _ => .failure "boom") (fun i => i == 1)
        = .cancelledDuringBackoff 1 ∧
    Worker.runWithRetry 3 (fun _ => .failure "boom") (fun i => i == 1)
        ≠ .markedFailed "boom" := by
  exact ⟨rfl, by decide⟩

/-- All attempts from `attempt` through `attempt + remaining` fail and no
backoff wait is interrupted: the loop falls through to the mark-failed
write with the last attempt's message. -/
theorem runFrom_all_fail (outcome : Nat → Worker.AttemptResult)
    (cancel : Nat → Bool) (msg : Nat → String) :
    ∀ (remaining attempt : Nat),
    (∀ i, attempt ≤ i → i ≤ attempt + remaining → outcome i = .failure (msg i)) →
    (∀ i, attempt ≤ i → i < attempt + remaining → cancel i = false) →
    Worker.runFrom outcome cancel attempt remaining
      = .markedFailed (msg (attempt + remaining)) := by
  intro remaining
  induction remaining with
  | zero =>
    intro attempt hfail _
    have h := hfail attempt le_rfl (by omega)
    simp [Worker.runFrom, h]
  | succ r ih =>
    intro attempt hfail hcancel
    have h := hfail attempt le_rfl (by omega)
    have hc := hcancel attempt le_rfl (by omega)
    have harith : attempt + (r + 1) = (attempt + 1) + r := by omega
    rw [Worker.runFrom, h, hc]
    simp only []
    rw [harith]
    exact ih (attempt + 1) (fun i h1 h2 => hfail i (by omega) (by omega))
      (fun i h1 h2 => hcancel i (by omega) (by omega))

/-- C2 amended: in every execution in which all configured attempts of the
Job actually run and fail - that is, the shutdown signal never wins a
backoff select between attempts - MarkReportFailed is invoked with the
last attempt's error message; the mark-failed write runs under its own
bounded timeout and is not skipped by a signal raised after the last
attempt (the hypothesis leaves `cancel maxRetries` unconstrained).  A
signal that does win a backoff wait instead aborts the loop without the
write (see the counterexample). -/
theorem runWithRetry_exhaustion_marks_failed (maxRetries : Nat)
    (outcome : Nat → Worker.AttemptResult) (cancel : Nat → Bool) (msg : Nat → String)
    (hmax : 1 ≤ maxRetries)
    (hfail : ∀ i, 1 ≤ i → i ≤ maxRetries → outcome i = .failure (msg i))
    (hcancel : ∀ i, 1 ≤ i → i < maxRetries → cancel i = false) :
    Worker.runWithRetry maxRetries outcome cancel = .markedFailed (msg maxRetries) := by
  have harith : 1 + (maxRetries - 1) = maxRetries := by omega
  rw [Worker.runWithRetry]
  rw [runFrom_all_fail outcome cancel msg (maxRetries - 1) 1
    (fun i h1 h2 => hfail i h1 (by omega))
    (fun i h1 h2 => hcancel i h1 (by omega))]
  rw [harith]

/-- Witness for C2 (amended): three failing attempts with the shutdown
signal raised right before the mark-failed write; the write still
happens. -/
theorem runWithRetry_exhaustion_marks_failed_witness :
    Worker.runWithRetry 3 (fun _ => .failure "boom") (fun i => i == 3)
      = .markedFailed "boom" :=
  runWithRetry_exhaustion_marks_failed 3 (fun _ => .failure "boom") (fun i => i == 3)
    (fun _ => "boom") (by decide) (fun i _ _ => rfl)
    (fun i _ h2 => by
      have : i ≠ 3 := by omega
      simp [this])

/-! Claim C9 - overall score as a half-up rounded mean. -/

/-- C9: OverallScore of the empty list is 0; for a non-empty list of risks
with non-negative composite scores the result q satisfies
q - 1/2 <= mean < q + 1/2 (written without fractions), i.e. it is the
arithmetic mean rounded half-up to the nearest integer; and the three
reference examples evaluate to 40, 11 and 0. -/
theorem overallScore_half_up :
    Scoring.OverallScore [] = 0 ∧
    (∀ risks : List Scoring.ScoredRisk, risks ≠ [] →
      (∀ r ∈ risks, 0 ≤ r.score) →
      2 * (risks.length : Int) * Scoring.OverallScore risks
          ≤ 2 * (risks.map Scoring.ScoredRisk.score).sum + risks.length ∧
      2 * (risks.map Scoring.ScoredRisk.score).sum + (risks.length : Int)
          < 2 * (risks.length : Int) * Scoring.OverallScore risks
              + 2 * risks.length) ∧
    Scoring.OverallScore risksMean40 = 40 ∧
    Scoring.OverallScore
        [{ questionID := "a", score := 10 }, { questionID := "b", score := 11 }]
      = 11 := by
  refine ⟨rfl, ?_, by decide, by decide⟩
  intro risks hne hnn
  have hlen : 0 < risks.length := List.length_pos.mpr hne
  have htotnn : 0 ≤ (risks.map Scoring.ScoredRisk.score).sum := by
    apply List.sum_nonneg
    intro x hx
    obtain ⟨r, hr, rfl⟩ := List.mem_map.mp hx
    exact hnn r hr
  obtain ⟨t, ht⟩ : ∃ t : Nat, (t : Int) = (risks.map Scoring.ScoredRisk.score).sum :=
    ⟨((risks.map Scoring.ScoredRisk.score).sum).toNat, Int.toNat_of_nonneg htotnn⟩
  set len := risks.length with hlendef
  have hA : 2 * (risks.map Scoring.ScoredRisk.score).sum + (len : Int)
      = ((2 * t + len : Nat) : Int) := by
    push_cast [ht]
    ring
  have hB : 2 * (len : Int) = ((2 * len : Nat) : Int) := by
    push_cast
    ring
  have hOS : Scoring.OverallScore risks = (((2 * t + len) / (2 * len) : Nat) : Int) := by
    simp only [Scoring.OverallScore]
    rw [if_neg (by omega)]
    rw [← hlendef, hA, hB, ← Int.ofNat_tdiv]
  rw [hOS, ← ht]
  set q := (2 * t + len) / (2 * len) with hq
  have hdm := Nat.div_add_mod (2 * t + len) (2 * len)
  have hmod : (2 * t + len) % (2 * len) < 2 * len := Nat.mod_lt _ (by omega)
  constructor
  · exact_mod_cast Nat.le.intro hdm
  · have h2 : 2 * t + len < 2 * len * q + 2 * len := by
      rw [← hdm]
      exact Nat.add_lt_add_left hmod _
    exact_mod_cast h2

/-- Witness for C9: the half-up characterisation at the scores 81, 30, 9. -/
theorem overallScore_half_up_witness :
    2 * (risksMean40.length : Int) * Scoring.OverallScore risksMean40
        ≤ 2 * (risksMean40.map Scoring.ScoredRisk.score).sum + risksMean40.length ∧
    2 * (risksMean40.map Scoring.ScoredRisk.score).sum + (risksMean40.length : Int)
        < 2 * (risksMean40.length : Int) * Scoring.OverallScore risksMean40
            + 2 * risksMean40.length :=
  overallScore_half_up.2.1 risksMean40 (by decide) (by decide)

/-! Claim C1 - InitialiseReport idempotency and rollback. -/

/-- C1: when a report row already exists for the session owning the payment
intent, InitialiseReport returns that existing report with the "already
exists" sentinel and leaves the state untouched (no second report row);
and when report creation fails after the paid-mark, the whole transaction
rolls back, so the session is not left paid without a report. -/
theorem initialiseReport_duplicate_and_rollback (fl : Store.Faults) (db : Store.DB)
    (paymentIntent : String) (s : Store.Session)
    (hs : db.sessions.find? (fun t => t.stripePaymentIntent = some paymentIntent) = some s) :
    (∀ r, db.reports.find? (fun t => t.sessionID = s.id) = some r →
      Store.InitialiseReport fl db paymentIntent = (db, .alreadyExists r)) ∧
    (db.reports.find? (fun t => t.sessionID = s.id) = none →
      fl.createReportFails = true →
      Store.InitialiseReport fl db paymentIntent
        = (db, .failed "InitialiseReport: create report")) := by
  constructor
  · intro r hr
    simp [Store.InitialiseReport, Store.MarkSessionPaid, hs,
      Store.GetReportBySessionID, hr]
  · intro hr hfl
    simp [Store.InitialiseReport, Store.MarkSessionPaid, hs,
      Store.GetReportBySessionID, hr, hfl]

/-- Witness for C1: a duplicate delivery of pi_1 against a state that
already holds session 1's report returns the sentinel, the existing
report, and the unchanged state. -/
theorem initialiseReport_duplicate_witness :
    Store.InitialiseReport {} dbWithReport "pi_1"
      = (dbWithReport, .alreadyExists reportOfSession1) :=
  (initialiseReport_duplicate_and_rollback {} dbWithReport "pi_1" sessionPi1
      (by decide)).1 reportOfSession1 (by decide)

/-! Claim C6 - AttachPaymentIntent double-attach guard. -/

/-- C6: when the session already carries a non-empty payment-intent
reference, AttachPaymentIntent leaves the stored references unchanged and
returns the existing row with the "already attached" sentinel; otherwise
it writes the new customer, intent and email references (empty customer
or email become NULL) and the re-read session shows them. -/
theorem attachPaymentIntent_single_attach (db : Store.DB)
    (p : Store.AttachPaymentIntentParams) (s : Store.Session)
    (hs : db.sessions.find? (fun t => t.id = p.sessionID) = some s) :
    (∀ t, s.stripePaymentIntent = some t → t ≠ "" →
      Store.AttachPaymentIntent db p = (db, .alreadyAttached s)) ∧
    ((s.stripePaymentIntent = none ∨ s.stripePaymentIntent = some "") →
      ∃ db' s', Store.AttachPaymentIntent db p = (db', .ok s') ∧
        s'.stripePaymentIntent = some p.stripePaymentIntent ∧
        s'.stripeCustomerID = Store.nullStringOf p.stripeCustomerID ∧
        s'.email = Store.nullStringOf p.email ∧
        db'.sessions.find? (fun t => t.id = p.sessionID) = some s' ∧
        db'.reports = db.reports ∧ db'.riskResults = db.riskResults) := by
  constructor
  · intro t ht htne
    simp [Store.AttachPaymentIntent, Store.GetSessionByID, hs, ht, htne]
  · intro hempty
    have hcond : s.stripePaymentIntent.getD "" = "" := by
      rcases hempty with h | h <;> simp [h]
    refine ⟨{ db with
        sessions := db.sessions.map fun t =>
          if t.id = p.sessionID then
            { t with
                stripeCustomerID := Store.nullStringOf p.stripeCustomerID
                stripePaymentIntent := some p.stripePaymentIntent
                email := Store.nullStringOf p.email }
          else t },
      { s with
          stripeCustomerID := Store.nullStringOf p.stripeCustomerID
          stripePaymentIntent := some p.stripePaymentIntent
          email := Store.nullStringOf p.email },
      ?_, rfl, rfl, rfl, ?_, rfl, rfl⟩
    · simp [Store.AttachPaymentIntent, Store.GetSessionByID, hs, hcond,
        Store.AttachStripeCustomer]
    · exact find?_map_update Store.Session.id
        (fun t =>
          { t with
              stripeCustomerID := Store.nullStringOf p.stripeCustomerID
              stripePaymentIntent := some p.stripePaymentIntent
              email := Store.nullStringOf p.email })
        p.sessionID (fun t => rfl) db.sessions s hs

/-- Witness for C6: session 1 already carries pi_1, so a second checkout
attempt with pi_2 receives the sentinel and the original row - pi_1 is
preserved. -/
theorem attachPaymentIntent_single_attach_witness :
    Store.AttachPaymentIntent dbWithReport
        { sessionID := 1, stripeCustomerID := "cus_2", stripePaymentIntent := "pi_2",
          email := "b@c.d" }
      = (dbWithReport, .alreadyAttached sessionPi1) :=
  (attachPaymentIntent_single_attach dbWithReport
      { sessionID := 1, stripeCustomerID := "cus_2", stripePaymentIntent := "pi_2",
        email := "b@c.d" } sessionPi1 (by decide)).1 "pi_1" rfl (by decide)

/-! Claim C4 - ScoreAnswer on valid radio and text configs. -/

/-- clamp is the identity on values already in [1, 10]. -/
theorem clamp_of_range (v : Int) (h1 : 1 ≤ v) (h2 : v ≤ 10) : Scoring.clamp v = v := by
  unfold Scoring.clamp
  split_ifs <;> omega

/-- What a successful radio validation guarantees. -/
theorem radioValidate_ok (rc : Scoring.RadioConfig) (h : rc.validate = .ok ()) :
    rc.opts.length ≠ 0 ∧ rc.pScores.length = rc.opts.length ∧
    rc.iScores.length = rc.opts.length ∧
    (∀ x ∈ rc.pScores, 1 ≤ x ∧ x ≤ 10) ∧ (∀ x ∈ rc.iScores, 1 ≤ x ∧ x ≤ 10) := by
  unfold Scoring.RadioConfig.validate at h
  split_ifs at h with h1 h2 h3 h4 h5
  refine ⟨h1, by omega, by omega, ?_, ?_⟩
  · intro x hx
    simp only [List.any_eq_true, Bool.or_eq_true, decide_eq_true_eq] at h4
    push_neg at h4
    have := h4 x hx
    omega
  · intro x hx
    simp only [List.any_eq_true, Bool.or_eq_true, decide_eq_true_eq] at h5
    push_neg at h5
    have := h5 x hx
    omega

/-- What a successful text validation guarantees. -/
theorem textValidate_ok (tc : Scoring.TextConfig) (h : tc.validate = .ok ()) :
    (1 ≤ tc.pShort ∧ tc.pShort ≤ 10) ∧ (1 ≤ tc.pLong ∧ tc.pLong ≤ 10) ∧
    (1 ≤ tc.iShort ∧ tc.iShort ≤ 10) ∧ (1 ≤ tc.iLong ∧ tc.iLong ≤ 10) ∧
    0 ≤ tc.threshold := by
  unfold Scoring.TextConfig.validate at h
  split_ifs at h with h1 h2 h3 h4 h5
  simp only [Bool.or_eq_true, decide_eq_true_eq, not_or] at h1 h2 h3 h4
  refine ⟨⟨by omega, by omega⟩, ⟨by omega, by omega⟩, ⟨by omega, by omega⟩,
    ⟨by omega, by omega⟩, by omega⟩

/-- The tail of a parallel score list indexes one position later. -/
theorem tail_getD (l : List Int) (j : Nat) : l.tail.getD j 0 = l.getD (j + 1) 0 := by
  cases l <;> simp [List.getD_cons_succ]

/-- The radio lookup loop returns the probability/impact pair at the first
index whose option equals the trimmed answer, and nothing otherwise. -/
theorem radioLookup_eq_findIdx (ans : String) :
    ∀ (opts : List String) (ps is_ : List Int),
    Scoring.radioLookup opts ps is_ ans
      = (opts.findIdx? (fun o => o = ans)).map
          (fun idx => (ps.getD idx 0, is_.getD idx 0)) := by
  intro opts
  induction opts with
  | nil => intro ps is_; simp [Scoring.radioLookup]
  | cons o opts ih =>
    intro ps is_
    by_cases ho : o = ans
    · simp [Scoring.radioLookup, ho, List.findIdx?_cons]
    · rw [Scoring.radioLookup, if_neg ho, ih]
      simp only [List.findIdx?_cons, ho, decide_eq_true_eq, if_neg ho, List.findIdx?_succ]
      cases h : opts.findIdx? (fun o => decide (o = ans)) with
      | none => simp [h]
      | some j => simp [h, tail_getD]

/-- A found index is inside the list. -/
theorem findIdx?_some_lt {α : Type} (p : α → Bool) :
    ∀ (l : List α) (i : Nat), l.findIdx? p = some i → i < l.length := by
  intro l
  induction l with
  | nil => intro i h; simp at h
  | cons a l ih =>
    intro i h
    rw [List.findIdx?_cons] at h
    by_cases hp : p a = true
    · rw [if_pos hp] at h
      cases h
      simp
    · rw [if_neg hp, List.findIdx?_succ] at h
      obtain ⟨j, hj, rfl⟩ := Option.map_eq_some'.mp h
      have := ih j hj
      simp only [List.length_cons]
      omega

/-- getD inside the bound is a member. -/
theorem getD_mem (l : List Int) (i : Nat) (h : i < l.length) : l.getD i 0 ∈ l := by
  rw [List.getD_eq_getElem?_getD, List.getElem?_eq_getElem h]
  exact List.getElem_mem h

/-- C4: on a valid radio config, ScoreAnswer returns the probability/impact
pair at the first option equal to the trimmed answer - already inside
[1,10], so clamping leaves it intact - and exactly (1,1) when no option
matches; on a valid text config it returns the long pair exactly when the
trimmed answer's byte length strictly exceeds the threshold and the short
pair otherwise (equality scores short). -/
theorem scoreAnswer_radio_text (answer : String) :
    (∀ rc : Scoring.RadioConfig, rc.validate = .ok () →
      (∀ idx, rc.opts.findIdx? (fun o => o = Scoring.trimSpace answer) = some idx →
        Scoring.ScoreAnswer (.radio rc) answer
            = .ok (rc.pScores.getD idx 0, rc.iScores.getD idx 0) ∧
          1 ≤ rc.pScores.getD idx 0 ∧ rc.pScores.getD idx 0 ≤ 10 ∧
          1 ≤ rc.iScores.getD idx 0 ∧ rc.iScores.getD idx 0 ≤ 10) ∧
      (rc.opts.findIdx? (fun o => o = Scoring.trimSpace answer) = none →
        Scoring.ScoreAnswer (.radio rc) answer = .ok (1, 1))) ∧
    (∀ tc : Scoring.TextConfig, tc.validate = .ok () →
      (((Scoring.trimSpace answer).utf8ByteSize : Int) > tc.threshold →
        Scoring.ScoreAnswer (.text tc) answer = .ok (tc.pLong, tc.iLong)) ∧
      (((Scoring.trimSpace answer).utf8ByteSize : Int) ≤ tc.threshold →
        Scoring.ScoreAnswer (.text tc) answer = .ok (tc.pShort, tc.iShort))) := by
  constructor
  · intro rc hval
    obtain ⟨hlen0, hplen, hilen, hpr, hir⟩ := radioValidate_ok rc hval
    have hparse : Scoring.ParseScoringConfig (.radio rc) = .ok (.radio rc) := by
      simp [Scoring.ParseScoringConfig, hval]
    constructor
    · intro idx hidx
      have hlt : idx < rc.opts.length := findIdx?_some_lt _ rc.opts idx hidx
      have hp := hpr _ (getD_mem rc.pScores idx (by omega))
      have hi := hir _ (getD_mem rc.iScores idx (by omega))
      refine ⟨?_, hp.1, hp.2, hi.1, hi.2⟩
      simp only [Scoring.ScoreAnswer, hparse]
      rw [radioLookup_eq_findIdx, hidx]
      simp only [Option.map_some']
      rw [clamp_of_range _ hp.1 hp.2, clamp_of_range _ hi.1 hi.2]
    · intro hidx
      simp only [Scoring.ScoreAnswer, hparse]
      rw [radioLookup_eq_findIdx, hidx]
      rfl
  · intro tc hval
    obtain ⟨hps, hpl, his, hil, hth⟩ := textValidate_ok tc hval
    have hparse : Scoring.ParseScoringConfig (.text tc) = .ok (.text tc) := by
      simp [Scoring.ParseScoringConfig, hval]
    constructor <;> intro h
    · simp only [Scoring.ScoreAnswer, hparse]
      rw [if_pos h]
      rw [clamp_of_range _ hpl.1 hpl.2, clamp_of_range _ hil.1 hil.2]
    · simp only [Scoring.ScoreAnswer, hparse]
      rw [if_neg (by omega)]
      rw [clamp_of_range _ hps.1 hps.2, clamp_of_range _ his.1 his.2]

/-- Witness for C4: " no " trims to "no", matching option index 1 of a valid
radio config, and yields that option's (9, 8) pair. -/
theorem scoreAnswer_radio_text_witness :
    Scoring.ScoreAnswer
        (.radio { opts := ["yes", "no"], pScores := [2, 9], iScores := [3, 8] }) " no "
      = .ok (9, 8) := by
  have h := ((scoreAnswer_radio_text " no ").1
      { opts := ["yes", "no"], pScores := [2, 9], iScores := [3, 8] } rfl).1 1
      (by decide)
  exact h.1

/-! Claim C5 - ComputeRisks ordering, ranks and error behaviour. -/

/-- ScoreAnswer succeeds whenever the config parses and validates. -/
theorem scoreAnswer_ok_of_parses (raw : Scoring.RawScoringConfig) (ans : String)
    (h : Scoring.parses raw = true) :
    ∃ pi_, Scoring.ScoreAnswer raw ans = .ok pi_ := by
  unfold Scoring.parses at h
  cases hp : Scoring.ParseScoringConfig raw with
  | error e => rw [hp] at h; simp at h
  | ok cfg =>
    cases cfg with
    | radio rc =>
      cases hl : Scoring.radioLookup rc.opts rc.pScores rc.iScores (Scoring.trimSpace ans) with
      | none => exact ⟨(1, 1), by simp [Scoring.ScoreAnswer, hp, hl]⟩
      | some pq =>
        exact ⟨(Scoring.clamp pq.1, Scoring.clamp pq.2),
          by simp [Scoring.ScoreAnswer, hp, hl]⟩
    | text tc =>
      by_cases hb : ((Scoring.trimSpace ans).utf8ByteSize : Int) > tc.threshold
      · exact ⟨_, by simp only [Scoring.ScoreAnswer, hp]; rw [if_pos hb]⟩
      · exact ⟨_, by simp only [Scoring.ScoreAnswer, hp]; rw [if_neg hb]⟩

/-- ScoreAnswer fails exactly on a config that does not parse. -/
theorem scoreAnswer_error_of_not_parses (raw : Scoring.RawScoringConfig) (ans : String)
    (h : Scoring.parses raw = false) :
    ∃ e, Scoring.ScoreAnswer raw ans = .error e := by
  unfold Scoring.parses at h
  cases hp : Scoring.ParseScoringConfig raw with
  | ok cfg => rw [hp] at h; simp at h
  | error e => exact ⟨"ScoreAnswer: " ++ e, by simp [Scoring.ScoreAnswer, hp]⟩

/-- The scoring loop succeeds on rows whose scoring configs all parse, and
produces exactly the scoring-flagged rows, in order, with score = p * i. -/
theorem scoreRows_ok (rows : List Scoring.AnswerRow)
    (h : ∀ row ∈ rows, row.isScoring = true → Scoring.parses row.scoringConfig = true) :
    ∃ l, Scoring.scoreRows rows = .ok l ∧
      l.map Scoring.ScoredRisk.questionID
        = (rows.filter (fun r => r.isScoring)).map Scoring.AnswerRow.questionID ∧
      ∀ r ∈ l, r.score = r.p * r.i := by
  induction rows with
  | nil => exact ⟨[], rfl, rfl, by simp⟩
  | cons row rest ih =>
    obtain ⟨l, hl, hmap, hsc⟩ := ih (fun r hr hr2 => h r (List.mem_cons_of_mem _ hr) hr2)
    by_cases hs : row.isScoring = true
    · obtain ⟨pq, hpi⟩ :=
        scoreAnswer_ok_of_parses _ row.answerText (h row (List.mem_cons_self _ _) hs)
      refine ⟨{ questionID := row.questionID, riskName := row.riskName,
                riskDesc := row.riskDesc, hedge := row.hedge,
                sectionLabel := row.sectionTitle, p := pq.1, i := pq.2,
                score := pq.1 * pq.2, tier := Scoring.GetTier pq.1 pq.2 } :: l, ?_, ?_, ?_⟩
      · simp [Scoring.scoreRows, hs, hpi, hl]
      · simp [List.filter_cons, hs, hmap]
      · intro r hr
        rcases List.mem_cons.mp hr with rfl | hr
        · rfl
        · exact hsc r hr
    · have hs' : row.isScoring = false := by simpa using hs
      refine ⟨l, ?_, ?_, hsc⟩
      · simp [Scoring.scoreRows, hs', hl]
      · simp [List.filter_cons, hs', hmap]

/-- The scoring loop fails when some scoring-flagged row's config does not
parse. -/
theorem scoreRows_error (rows : List Scoring.AnswerRow)
    (h : ∃ row ∈ rows, row.isScoring = true ∧ Scoring.parses row.scoringConfig = false) :
    ∃ e, Scoring.scoreRows rows = .error e := by
  induction rows with
  | nil => simp at h
  | cons row rest ih =>
    by_cases hs : row.isScoring = true
    · cases hp : Scoring.parses row.scoringConfig with
      | false =>
        obtain ⟨e, he⟩ := scoreAnswer_error_of_not_parses _ row.answerText hp
        exact ⟨"question " ++ row.questionID ++ ": " ++ e,
          by simp [Scoring.scoreRows, hs, he]⟩
      | true =>
        have hrest : ∃ r ∈ rest, r.isScoring = true ∧ Scoring.parses r.scoringConfig = false := by
          rcases h with ⟨r, hr, h1, h2⟩
          rcases List.mem_cons.mp hr with rfl | hr'
          · rw [hp] at h2; cases h2
          · exact ⟨r, hr', h1, h2⟩
        obtain ⟨e, he⟩ := ih hrest
        obtain ⟨pq, hpi⟩ := scoreAnswer_ok_of_parses _ row.answerText hp
        exact ⟨e, by simp [Scoring.scoreRows, hs, hpi, he]⟩
    · have hs' : row.isScoring = false := by simpa using hs
      have hrest : ∃ r ∈ rest, r.isScoring = true ∧ Scoring.parses r.scoringConfig = false := by
        rcases h with ⟨r, hr, h1, h2⟩
        rcases List.mem_cons.mp hr with rfl | hr'
        · rw [h1] at hs'; cases hs'
        · exact ⟨r, hr', h1, h2⟩
      obtain ⟨e, he⟩ := ih hrest
      exact ⟨e, by simp [Scoring.scoreRows, hs', he]⟩

/-- The sort comparator is transitive. -/
theorem riskLE_trans (a b c : Scoring.ScoredRisk)
    (hab : Scoring.riskLE a b = true) (hbc : Scoring.riskLE b c = true) :
    Scoring.riskLE a c = true := by
  simp only [Scoring.riskLE, Bool.or_eq_true, Bool.and_eq_true, decide_eq_true_eq] at *
  rcases hab with h1 | ⟨h1, h1q⟩ <;> rcases hbc with h2 | ⟨h2, h2q⟩
  · left; omega
  · left; omega
  · left; omega
  · right; exact ⟨by omega, le_trans h1q h2q⟩

/-- The sort comparator is total. -/
theorem riskLE_total (a b : Scoring.ScoredRisk) :
    (Scoring.riskLE a b || Scoring.riskLE b a) = true := by
  simp only [Scoring.riskLE, Bool.or_eq_true, Bool.and_eq_true, decide_eq_true_eq]
  rcases lt_trichotomy a.score b.score with h | h | h
  · right; left; omega
  · rcases le_total a.questionID b.questionID with hq | hq
    · left; right; exact ⟨h, hq⟩
    · right; right; exact ⟨h.symm, hq⟩
  · left; left; omega

/-- Rank assignment changes no field that a rank-blind projection reads. -/
theorem assignRanks_map_proj {α : Type} (f : Scoring.ScoredRisk → α)
    (hf : ∀ (r : Scoring.ScoredRisk) (n : Int), f { r with rank := n } = f r) :
    ∀ (n : Int) (l : List Scoring.ScoredRisk),
    (Scoring.assignRanks n l).map f = l.map f := by
  intro n l
  induction l generalizing n with
  | nil => rfl
  | cons r rest ih => simp [Scoring.assignRanks, hf, ih]

/-- Rank assignment writes consecutive ranks starting at n. -/
theorem assignRanks_rank :
    ∀ (l : List Scoring.ScoredRisk) (n : Int) (i : Nat)
      (h : i < (Scoring.assignRanks n l).length),
    ((Scoring.assignRanks n l).get ⟨i, h⟩).rank = n + i := by
  intro l
  induction l with
  | nil => intro n i h; simp [Scoring.assignRanks] at h
  | cons r rest ih =>
    intro n i h
    cases i with
    | zero => simp [Scoring.assignRanks]
    | succ j =>
      have h' : j < (Scoring.assignRanks (n + 1) rest).length := by
        simpa [Scoring.assignRanks] using h
      have := ih (n + 1) j h'
      simp only [Scoring.assignRanks, List.get_cons_succ]
      rw [this]
      push_cast
      ring

/-- C5: when every scoring-flagged row's config parses and validates,
ComputeRisks succeeds with exactly the scoring rows, sorted descending by
composite score with exact ties ordered by ascending question identifier,
carrying score = probability x impact and the dense 1-indexed rank
sequence; when any scoring-flagged row's config fails to parse or
validate, ComputeRisks returns an error. -/
theorem computeRisks_sorted_ranked (rows : List Scoring.AnswerRow) :
    ((∀ row ∈ rows, row.isScoring = true → Scoring.parses row.scoringConfig = true) →
      ∃ risks, Scoring.ComputeRisks rows = .ok risks ∧
        (risks.map Scoring.ScoredRisk.questionID).Perm
          ((rows.filter (fun r => r.isScoring)).map Scoring.AnswerRow.questionID) ∧
        risks.Pairwise (fun a b =>
          a.score > b.score ∨ (a.score = b.score ∧ a.questionID ≤ b.questionID)) ∧
        (∀ (i : Nat) (h : i < risks.length), (risks.get ⟨i, h⟩).rank = (i : Int) + 1) ∧
        (∀ r ∈ risks, r.score = r.p * r.i)) ∧
    ((∃ row ∈ rows, row.isScoring = true ∧ Scoring.parses row.scoringConfig = false) →
      ∃ e, Scoring.ComputeRisks rows = .error e) := by
  constructor
  · intro hall
    obtain ⟨risks0, h0, hmap0, hsc0⟩ := scoreRows_ok rows hall
    refine ⟨Scoring.assignRanks 1 (risks0.mergeSort Scoring.riskLE), ?_, ?_, ?_, ?_, ?_⟩
    · simp [Scoring.ComputeRisks, h0]
    · rw [assignRanks_map_proj Scoring.ScoredRisk.questionID (fun r n => rfl)]
      exact hmap0 ▸ ((List.mergeSort_perm risks0 Scoring.riskLE).map
        Scoring.ScoredRisk.questionID)
    · have hsorted := List.sorted_mergeSort riskLE_trans riskLE_total risks0
      have hR : (risks0.mergeSort Scoring.riskLE).Pairwise
          (fun a b => a.score > b.score ∨ (a.score = b.score ∧ a.questionID ≤ b.questionID)) := by
        refine hsorted.imp ?_
        intro a b hab
        simpa [Scoring.riskLE, Bool.or_eq_true, Bool.and_eq_true,
          decide_eq_true_eq] using hab
      have h1 : ((risks0.mergeSort Scoring.riskLE).map
            (fun r => (r.score, r.questionID))).Pairwise
          (fun x y => x.1 > y.1 ∨ (x.1 = y.1 ∧ x.2 ≤ y.2)) :=
        List.pairwise_map.mpr (hR.imp fun h => h)
      rw [← assignRanks_map_proj (fun r => (r.score, r.questionID)) (fun r n => rfl) 1] at h1
      exact (List.pairwise_map.mp h1).imp fun h => h
    · intro i h
      rw [assignRanks_rank]
      ring
    · intro r hr
      have hmem : (fun t => (t.score, t.p, t.i)) r
          ∈ (Scoring.assignRanks 1 (risks0.mergeSort Scoring.riskLE)).map
              (fun t => (t.score, t.p, t.i)) :=
        List.mem_map_of_mem _ hr
      rw [assignRanks_map_proj (fun t => (t.score, t.p, t.i)) (fun t n => rfl)] at hmem
      obtain ⟨r0, hr0, hproj⟩ := List.mem_map.mp hmem
      have hr0' : r0 ∈ risks0 := (List.mergeSort_perm risks0 Scoring.riskLE).mem_iff.mp hr0
      have := hsc0 r0 hr0'
      obtain ⟨e1, e2, e3⟩ : r0.score = r.score ∧ r0.p = r.p ∧ r0.i = r.i := by
        injection hproj with a b
        injection b with b c
        exact ⟨a, b, c⟩
      rw [← e1, ← e2, ← e3]
      exact this
  · intro hbad
    obtain ⟨e, he⟩ := scoreRows_error rows hbad
    exact ⟨e, by simp [Scoring.ComputeRisks, he]⟩

/-- Witness for C5: the three demo rows (two scoring, one contextual). -/
theorem computeRisks_sorted_ranked_witness :
    ∃ risks, Scoring.ComputeRisks rowsDemo = .ok risks ∧
      (risks.map Scoring.ScoredRisk.questionID).Perm
        ((rowsDemo.filter (fun r => r.isScoring)).map Scoring.AnswerRow.questionID) ∧
      risks.Pairwise (fun a b =>
        a.score > b.score ∨ (a.score = b.score ∧ a.questionID ≤ b.questionID)) ∧
      (∀ (i : Nat) (h : i < risks.length), (risks.get ⟨i, h⟩).rank = (i : Int) + 1) ∧
      (∀ r ∈ risks, r.score = r.p * r.i) :=
  (computeRisks_sorted_ranked rowsDemo).1 (by decide)

/-! Claim C3 - AI-hedge override application in PersistScoredReport. -/

/-- Map assignment binds its own key. -/
theorem lookup_mapInsert_self (m : List (String × Nat)) (k : String) (v : Nat) :
    (Store.mapInsert m k v).lookup k = some v := by
  simp [Store.mapInsert, List.lookup_cons]

/-- Filtering out one key leaves every other key's lookup unchanged. -/
theorem lookup_filter_ne (k q : String) (h : q ≠ k) :
    ∀ (m : List (String × Nat)),
    (m.filter (fun kv => kv.1 ≠ k)).lookup q = m.lookup q := by
  intro m
  induction m with
  | nil => rfl
  | cons kv rest ih =>
    obtain ⟨k1, v1⟩ := kv
    by_cases hk : k1 = k
    · rw [List.filter_cons, if_neg (by simp [hk])]
      rw [ih, List.lookup_cons]
      have : (q == k1) = false := beq_eq_false_iff_ne.mpr (by rw [hk]; exact h)
      rw [this]
    · rw [List.filter_cons, if_pos (by simp [hk])]
      rw [List.lookup_cons, List.lookup_cons]
      cases hq : (q == k1) with
      | true => rfl
      | false => exact ih

/-- Map assignment leaves every other key's lookup unchanged. -/
theorem lookup_mapInsert_ne (m : List (String × Nat)) (k : String) (v : Nat)
    (q : String) (h : q ≠ k) :
    (Store.mapInsert m k v).lookup q = m.lookup q := by
  rw [Store.mapInsert, List.lookup_cons]
  have hb : (q == k) = false := beq_eq_false_iff_ne.mpr h
  rw [hb]
  exact lookup_filter_ne k q h m


/-- A successful lookup names an actual binding of the association list. -/
theorem mem_of_lookup (q : String) (v : Nat) :
    ∀ (m : List (String × Nat)), m.lookup q = some v → (q, v) ∈ m := by
  intro m
  induction m with
  | nil => intro h; cases h
  | cons kv rest ih =>
    obtain ⟨k1, v1⟩ := kv
    intro h
    rw [List.lookup_cons] at h
    cases hq : (q == k1) with
    | true =>
      rw [hq] at h
      cases h
      have : q = k1 := by simpa using hq
      simp [this]
    | false =>
      rw [hq] at h
      exact List.mem_cons_of_mem _ (ih h)

/-- The insert loop of PersistScoredReport: on a state with fresh ids, no
conflicting rows, and distinct question ids, it succeeds, appends one row
per risk with fresh ids and NULL ai_hedge, and the resultIDs map sends
each scored question id to its row id, injectively. -/
theorem insertRisks_spec (rid : Nat) :
    ∀ (risks : List Scoring.ScoredRisk) (db : Store.DB) (m : List (String × Nat)),
    (∀ row ∈ db.riskResults, row.reportID = rid →
        row.questionID ∉ risks.map Scoring.ScoredRisk.questionID) →
    (risks.map Scoring.ScoredRisk.questionID).Nodup →
    (∀ row ∈ db.riskResults, row.id < db.nextRiskResultID) →
    (∀ kv ∈ m, kv.2 < db.nextRiskResultID) →
    (∀ q1 q2 i, m.lookup q1 = some i → m.lookup q2 = some i → q1 = q2) →
    ∃ db2 m2,
      Store.insertRisks rid risks db m = (db2, .ok m2) ∧
      db2.sessions = db.sessions ∧
      db2.reports = db.reports ∧
      db.nextRiskResultID ≤ db2.nextRiskResultID ∧
      (∃ newRows, db2.riskResults = db.riskResults ++ newRows ∧
        ∀ row ∈ newRows, row.reportID = rid ∧ row.aiHedge = none ∧
          row.questionID ∈ risks.map Scoring.ScoredRisk.questionID ∧
          db.nextRiskResultID ≤ row.id) ∧
      (∀ row ∈ db2.riskResults, row.id < db2.nextRiskResultID) ∧
      (∀ q, q ∉ risks.map Scoring.ScoredRisk.questionID → m2.lookup q = m.lookup q) ∧
      (∀ q, q ∈ risks.map Scoring.ScoredRisk.questionID →
        ∃ i, m2.lookup q = some i ∧
          (∃ row ∈ db2.riskResults, row.id = i) ∧
          (∀ row ∈ db2.riskResults, row.id = i →
            row.reportID = rid ∧ row.questionID = q ∧ row.aiHedge = none)) ∧
      (∀ kv ∈ m2, kv.2 < db2.nextRiskResultID) ∧
      (∀ q1 q2 i, m2.lookup q1 = some i → m2.lookup q2 = some i → q1 = q2) := by
  intro risks
  induction risks with
  | nil =>
    intro db m hno hnd hwf hmb hminj
    exact ⟨db, m, rfl, rfl, rfl, le_rfl, ⟨[], by simp, by simp⟩, hwf,
      fun q _ => rfl, fun q hq => absurd hq (by simp), hmb, hminj⟩
  | cons risk rest ih =>
    intro db m hno hnd hwf hmb hminj
    have hnd' : risk.questionID ∉ rest.map Scoring.ScoredRisk.questionID ∧
        (rest.map Scoring.ScoredRisk.questionID).Nodup :=
      List.nodup_cons.mp (by simpa using hnd)
    have hnotany : (db.riskResults.any
        (fun r => decide (r.reportID = rid) && decide (r.questionID = risk.questionID)))
          = false := by
      rw [List.any_eq_false]
      intro row hrow
      simp only [Bool.and_eq_true, decide_eq_true_eq, not_and]
      intro h1 h2
      exact absurd (by simp [h2] : row.questionID ∈
        (risk :: rest).map Scoring.ScoredRisk.questionID) (hno row hrow h1)
    have hstep : Store.insertRisks rid (risk :: rest) db m
        = Store.insertRisks rid rest
            { db with
                riskResults := db.riskResults ++
                  [{ id := db.nextRiskResultID, reportID := rid,
                     questionID := risk.questionID, rank := risk.rank,
                     riskName := risk.riskName, riskDesc := risk.riskDesc,
                     probability := risk.p, impact := risk.i, score := risk.score,
                     tier := risk.tier, hedge := risk.hedge, aiHedge := none,
                     sectionLabel := risk.sectionLabel }]
                nextRiskResultID := db.nextRiskResultID + 1 }
            (Store.mapInsert m risk.questionID db.nextRiskResultID) := by
      rw [Store.insertRisks]
      simp only [Store.InsertRiskResult, hnotany]
      rfl
    set rowNew : Store.RiskResult :=
      { id := db.nextRiskResultID, reportID := rid,
        questionID := risk.questionID, rank := risk.rank,
        riskName := risk.riskName, riskDesc := risk.riskDesc,
        probability := risk.p, impact := risk.i, score := risk.score,
        tier := risk.tier, hedge := risk.hedge, aiHedge := none,
        sectionLabel := risk.sectionLabel } with hrowNew
    set db1 : Store.DB :=
      { db with
          riskResults := db.riskResults ++ [rowNew]
          nextRiskResultID := db.nextRiskResultID + 1 } with hdb1
    set m1 := Store.mapInsert m risk.questionID db.nextRiskResultID with hm1
    have hno1 : ∀ row ∈ db1.riskResults, row.reportID = rid →
        row.questionID ∉ rest.map Scoring.ScoredRisk.questionID := by
      intro row hrow h1
      rcases List.mem_append.mp hrow with hold | hnew
      · have := hno row hold h1
        simp only [List.map_cons, List.mem_cons, not_or] at this
        exact this.2
      · have heq := List.mem_singleton.mp hnew
        subst heq
        exact hnd'.1
    have hwf1 : ∀ row ∈ db1.riskResults, row.id < db1.nextRiskResultID := by
      intro row hrow
      rcases List.mem_append.mp hrow with hold | hnew
      · have := hwf row hold
        show row.id < db.nextRiskResultID + 1
        omega
      · have heq := List.mem_singleton.mp hnew
        subst heq
        show db.nextRiskResultID < db.nextRiskResultID + 1
        omega
    have hmb1 : ∀ kv ∈ m1, kv.2 < db1.nextRiskResultID := by
      intro kv hkv
      rw [hm1, Store.mapInsert] at hkv
      rcases List.mem_cons.mp hkv with rfl | hkv'
      · show db.nextRiskResultID < db.nextRiskResultID + 1
        omega
      · have := hmb kv (List.mem_of_mem_filter hkv')
        show kv.2 < db.nextRiskResultID + 1
        omega
    have hminj1 : ∀ q1 q2 i, m1.lookup q1 = some i → m1.lookup q2 = some i → q1 = q2 := by
      intro q1 q2 i hq1 hq2
      by_cases e1 : q1 = risk.questionID <;> by_cases e2 : q2 = risk.questionID
      · rw [e1, e2]
      · rw [e1, hm1, lookup_mapInsert_self] at hq1
        rw [hm1, lookup_mapInsert_ne m _ _ q2 e2] at hq2
        have := hmb (q2, i) (mem_of_lookup q2 i m hq2)
        exact absurd hq1 (by simp only [Option.some.injEq]; omega)
      · rw [e2, hm1, lookup_mapInsert_self] at hq2
        rw [hm1, lookup_mapInsert_ne m _ _ q1 e1] at hq1
        have := hmb (q1, i) (mem_of_lookup q1 i m hq1)
        exact absurd hq2 (by simp only [Option.some.injEq]; omega)
      · rw [hm1, lookup_mapInsert_ne m _ _ q1 e1] at hq1
        rw [hm1, lookup_mapInsert_ne m _ _ q2 e2] at hq2
        exact hminj q1 q2 i hq1 hq2
    obtain ⟨db2, m2, hins, hsess2, hrep2, hnext2, ⟨newRows, hnewEq, hnewProps⟩, hwf2,
      hlkOld, hlkNew, hmb2, hminj2⟩ := ih db1 m1 hno1 hnd'.2 hwf1 hmb1 hminj1
    refine ⟨db2, m2, ?_, ?_, ?_, ?_, ?_, hwf2, ?_, ?_, hmb2, hminj2⟩
    · rw [hstep]
      exact hins
    · rw [hsess2]
    · rw [hrep2]
    · have h1 : db1.nextRiskResultID = db.nextRiskResultID + 1 := rfl
      omega
    · refine ⟨rowNew :: newRows, ?_, ?_⟩
      · rw [hnewEq]
        show (db.riskResults ++ [rowNew]) ++ newRows = db.riskResults ++ rowNew :: newRows
        simp
      · intro row hrow
        rcases List.mem_cons.mp hrow with rfl | hrow'
        · exact ⟨rfl, rfl, by simp, le_rfl⟩
        · obtain ⟨h1, h2, h3, h4⟩ := hnewProps row hrow'
          refine ⟨h1, h2, ?_, ?_⟩
          · simp only [List.map_cons, List.mem_cons]
            exact Or.inr h3
          · have : db1.nextRiskResultID = db.nextRiskResultID + 1 := rfl
            omega
    · intro q hq
      simp only [List.map_cons, List.mem_cons, not_or] at hq
      rw [hlkOld q hq.2, hm1, lookup_mapInsert_ne m _ _ q hq.1]
    · intro q hq
      have hq' : q = risk.questionID ∨ q ∈ rest.map Scoring.ScoredRisk.questionID := by
        simpa using hq
      rcases hq' with rfl | hqrest
      · refine ⟨db.nextRiskResultID, ?_, ?_, ?_⟩
        · rw [hlkOld _ hnd'.1, hm1, lookup_mapInsert_self]
        · refine ⟨rowNew, ?_, rfl⟩
          rw [hnewEq]
          exact List.mem_append.mpr (Or.inl (List.mem_append.mpr (Or.inr (by simp))))
        · intro row hrow hid
          rw [hnewEq] at hrow
          rcases List.mem_append.mp hrow with h1 | h2
          · rcases List.mem_append.mp h1 with hold | hnew
            · exact absurd hid (by have := hwf row hold; omega)
            · have heq := List.mem_singleton.mp hnew
              subst heq
              exact ⟨rfl, rfl, rfl⟩
          · obtain ⟨_, _, _, h4⟩ := hnewProps row h2
            have h5 : db1.nextRiskResultID = db.nextRiskResultID + 1 := rfl
            exact absurd hid (by omega)
      · obtain ⟨i, hlk, hex, hall⟩ := hlkNew q hqrest
        refine ⟨i, hlk, hex, fun row hrow hid => ?_⟩
        exact hall row hrow hid

/-- An ai_hedge update aimed at one row id leaves the rows with any other id
untouched. -/
theorem filter_update_ne (l : List Store.RiskResult) (rowID i : Nat)
    (hne : rowID ≠ i) (hedge : Option String) :
    ((l.map fun t => if t.id = rowID then { t with aiHedge := hedge } else t).filter
        (fun r => r.id = i))
      = l.filter (fun r => r.id = i) := by
  induction l with
  | nil => rfl
  | cons a l ih =>
    simp only [List.map_cons]
    by_cases ha : a.id = rowID
    · rw [if_pos ha]
      rw [List.filter_cons, List.filter_cons]
      rw [if_neg (by simp [ha, hne]), if_neg (by simp [ha, hne])]
      exact ih
    · rw [if_neg ha]
      rw [List.filter_cons, List.filter_cons]
      by_cases hb : a.id = i
      · rw [if_pos (by simp [hb]), if_pos (by simp [hb])]
        rw [ih]
      · rw [if_neg (by simp [hb]), if_neg (by simp [hb])]
        exact ih

/-- The AI-hedge loop never touches rows whose id no entry resolves to. -/
theorem applyAIHedges_untouched :
    ∀ (entries : List (String × String)) (db : Store.DB) (m : List (String × Nat)) (i : Nat),
    (∀ q h id2, (q, h) ∈ entries → m.lookup q = some id2 → id2 ≠ i) →
    ((Store.applyAIHedges db m entries).1.riskResults.filter (fun r => r.id = i))
      = db.riskResults.filter (fun r => r.id = i) := by
  intro entries
  induction entries with
  | nil => intro db m i _; rfl
  | cons e rest ih =>
    intro db m i hne
    obtain ⟨q, h⟩ := e
    have hne' : ∀ q2 h2 id2, (q2, h2) ∈ rest → m.lookup q2 = some id2 → id2 ≠ i :=
      fun q2 h2 id2 hm hl => hne q2 h2 id2 (List.mem_cons_of_mem _ hm) hl
    cases hlq : m.lookup q with
    | none =>
      simp only [Store.applyAIHedges, hlq]
      exact ih db m i hne'
    | some rowID =>
      simp only [Store.applyAIHedges, hlq]
      by_cases hh : h = ""
      · rw [if_pos hh]
        exact ih db m i hne'
      · rw [if_neg hh]
        rcases hset : Store.SetAIHedge db rowID (some h) with ⟨dbU, res⟩
        cases res with
        | error e2 =>
          simp only [hset]
        | ok row2 =>
          simp only [hset]
          rw [ih dbU m i hne']
          rw [Store.SetAIHedge] at hset
          cases hfind : db.riskResults.find? (fun r => r.id = rowID) with
          | none =>
            rw [hfind] at hset
            cases hset
          | some row0 =>
            rw [hfind] at hset
            cases hset
            exact filter_update_ne db.riskResults rowID i
              (hne q h rowID (List.mem_cons_self _ _) hlq) (some h)

/-- The AI-hedge loop of PersistScoredReport: with distinct map keys, an
injective resultIDs map, and every resolved id naming an existing row, it
succeeds, changes nothing but ai_hedge columns, and writes each non-empty
override onto every row carrying the resolved id. -/
theorem applyAIHedges_spec :
    ∀ (entries : List (String × String)) (db : Store.DB) (m : List (String × Nat)),
    (entries.map Prod.fst).Nodup →
    (∀ q1 q2 i, m.lookup q1 = some i → m.lookup q2 = some i → q1 = q2) →
    (∀ q hx i, (q, hx) ∈ entries → m.lookup q = some i →
        ∃ row ∈ db.riskResults, row.id = i) →
    ∃ db3, Store.applyAIHedges db m entries = (db3, .ok ()) ∧
      db3.sessions = db.sessions ∧
      db3.reports = db.reports ∧
      db3.nextRiskResultID = db.nextRiskResultID ∧
      db3.riskResults.map (fun r => { r with aiHedge := none })
        = db.riskResults.map (fun r => { r with aiHedge := none }) ∧
      (∀ q hx i, (q, hx) ∈ entries → hx ≠ "" → m.lookup q = some i →
        ∀ row ∈ db3.riskResults, row.id = i → row.aiHedge = some hx) := by
  intro entries
  induction entries with
  | nil =>
    intro db m _ _ _
    exact ⟨db, rfl, rfl, rfl, rfl, rfl, fun q hx i hm => absurd hm (by simp)⟩
  | cons e rest ih =>
    intro db m hnd hminj hex
    obtain ⟨q, hx⟩ := e
    have hnd' : q ∉ rest.map Prod.fst ∧ (rest.map Prod.fst).Nodup :=
      List.nodup_cons.mp (by simpa using hnd)
    cases hlq : m.lookup q with
    | none =>
      obtain ⟨db3, heq, h1, h2, h3, h4, h5⟩ := ih db m hnd'.2 hminj
        (fun q2 hx2 i hm hl => hex q2 hx2 i (List.mem_cons_of_mem _ hm) hl)
      refine ⟨db3, ?_, h1, h2, h3, h4, ?_⟩
      · simp only [Store.applyAIHedges, hlq]
        exact heq
      · intro q2 hx2 i hm hne2 hl
        rcases List.mem_cons.mp hm with heq2 | hm'
        · cases heq2
          rw [hlq] at hl
          cases hl
        · exact h5 q2 hx2 i hm' hne2 hl
    | some rowID =>
      by_cases hh : hx = ""
      · obtain ⟨db3, heq, h1, h2, h3, h4, h5⟩ := ih db m hnd'.2 hminj
          (fun q2 hx2 i hm hl => hex q2 hx2 i (List.mem_cons_of_mem _ hm) hl)
        refine ⟨db3, ?_, h1, h2, h3, h4, ?_⟩
        · simp only [Store.applyAIHedges, hlq]
          rw [if_pos hh]
          exact heq
        · intro q2 hx2 i hm hne2 hl
          rcases List.mem_cons.mp hm with heq2 | hm'
          · cases heq2
            exact absurd hh hne2
          · exact h5 q2 hx2 i hm' hne2 hl
      · obtain ⟨row0, hrow0mem, hrow0id⟩ := hex q hx rowID (List.mem_cons_self _ _) hlq
        have hfindSome : (db.riskResults.find? (fun r => r.id = rowID)).isSome := by
          rw [List.find?_isSome]
          exact ⟨row0, hrow0mem, by simp [hrow0id]⟩
        obtain ⟨rowF, hrowF⟩ := Option.isSome_iff_exists.mp hfindSome
        have hset : Store.SetAIHedge db rowID (some hx)
            = ({ db with
                  riskResults := db.riskResults.map fun t =>
                    if t.id = rowID then { t with aiHedge := some hx } else t },
               .ok { rowF with aiHedge := some hx }) := by
          rw [Store.SetAIHedge, hrowF]
        set dbU : Store.DB :=
          { db with
              riskResults := db.riskResults.map fun t =>
                if t.id = rowID then { t with aiHedge := some hx } else t } with hdbU
        have hexU : ∀ q2 hx2 i, (q2, hx2) ∈ rest → m.lookup q2 = some i →
            ∃ row ∈ dbU.riskResults, row.id = i := by
          intro q2 hx2 i hm hl
          obtain ⟨row, hrmem, hrid⟩ := hex q2 hx2 i (List.mem_cons_of_mem _ hm) hl
          refine ⟨if row.id = rowID then { row with aiHedge := some hx } else row, ?_, ?_⟩
          · exact List.mem_map_of_mem _ hrmem
          · by_cases hc : row.id = rowID
            · rw [if_pos hc]
              show row.id = i
              exact hrid
            · rw [if_neg hc]
              exact hrid
        obtain ⟨db3, heq, h1, h2, h3, h4, h5⟩ := ih dbU m hnd'.2 hminj hexU
        refine ⟨db3, ?_, ?_, ?_, ?_, ?_, ?_⟩
        · simp only [Store.applyAIHedges, hlq]
          rw [if_neg hh, hset]
          exact heq
        · rw [h1]
        · rw [h2]
        · rw [h3]
        · rw [h4]
          show (db.riskResults.map fun t =>
              if t.id = rowID then { t with aiHedge := some hx } else t).map
              (fun r => { r with aiHedge := none })
            = db.riskResults.map (fun r => { r with aiHedge := none })
          rw [List.map_map]
          exact List.map_congr_left
            (fun t _ => by by_cases hc : t.id = rowID <;> simp [hc])
        · intro q2 hx2 i hm hne2 hl
          rcases List.mem_cons.mp hm with heq2 | hm'
          · cases heq2
            rw [hlq] at hl
            cases hl
            intro row hrow hid
            have hneq : ∀ q3 hx3 id3, (q3, hx3) ∈ rest → m.lookup q3 = some id3 →
                id3 ≠ rowID := by
              intro q3 hx3 id3 hm3 hl3 hcontra
              subst hcontra
              have hq3 : q3 = q := hminj q3 q id3 hl3 hlq
              exact hnd'.1 (hq3 ▸ List.mem_map_of_mem Prod.fst hm3)
            have hunt := applyAIHedges_untouched rest dbU m rowID hneq
            rw [heq] at hunt
            have hrowfilter : row ∈ db3.riskResults.filter (fun r => r.id = rowID) :=
              List.mem_filter.mpr ⟨hrow, by simp [hid]⟩
            rw [hunt] at hrowfilter
            have hrowU := (List.mem_filter.mp hrowfilter).1
            obtain ⟨t, htmem, hteq⟩ := List.mem_map.mp hrowU
            by_cases hc : t.id = rowID
            · rw [if_pos hc] at hteq
              rw [← hteq]
            · rw [if_neg hc] at hteq
              rw [← hteq] at hid
              exact absurd hid hc
          · exact h5 q2 hx2 i hm' hne2 hl

/-- Rows related by an ai_hedge-blind projection agree on id, report and
question. -/
theorem mem_of_strip_map_eq {l1 l2 : List Store.RiskResult}
    (h : l1.map (fun r => { r with aiHedge := none })
        = l2.map (fun r => { r with aiHedge := none }))
    (row : Store.RiskResult) (hrow : row ∈ l1) :
    ∃ row2 ∈ l2, row2.id = row.id ∧ row2.reportID = row.reportID ∧
      row2.questionID = row.questionID := by
  have hmem : ({ row with aiHedge := none } : Store.RiskResult)
      ∈ l2.map (fun r => { r with aiHedge := none }) := by
    rw [← h]
    exact List.mem_map_of_mem _ hrow
  obtain ⟨row2, hm2, he⟩ := List.mem_map.mp hmem
  have hid : row2.id = row.id := by
    have := congrArg Store.RiskResult.id he
    simpa using this
  have hrep : row2.reportID = row.reportID := by
    have := congrArg Store.RiskResult.reportID he
    simpa using this
  have hq : row2.questionID = row.questionID := by
    have := congrArg Store.RiskResult.questionID he
    simpa using this
  exact ⟨row2, hm2, hid, hrep, hq⟩

/-- C3 (amended): PersistScoredReport, run against a state whose report row
exists, with fresh row ids, no pre-existing result rows for this report,
and distinct question ids and map keys, completes successfully whatever
the AI-hedge map contains; every map entry with non-empty text whose
question id is among the scored risks ends up applied to that question's
result row, and entries whose id is absent from the scored set are
silently skipped - no row for such an id exists and the operation still
finalizes. -/
theorem persistScoredReport_overrides (db : Store.DB)
    (p : Store.PersistScoredReportParams) (rep : Store.Report)
    (hrep : db.reports.find? (fun t => t.id = p.reportID) = some rep)
    (hwf : ∀ row ∈ db.riskResults, row.id < db.nextRiskResultID)
    (hnone : ∀ row ∈ db.riskResults, row.reportID ≠ p.reportID)
    (hnodup : (p.risks.map Scoring.ScoredRisk.questionID).Nodup)
    (hkeys : (p.aiHedges.map Prod.fst).Nodup) :
    ∃ db4 rep2, Store.PersistScoredReport db p = (db4, .ok rep2) ∧
      (∀ q hx, (q, hx) ∈ p.aiHedges → hx ≠ "" →
        q ∈ p.risks.map Scoring.ScoredRisk.questionID →
        ∃ row ∈ db4.riskResults, row.reportID = p.reportID ∧ row.questionID = q ∧
          row.aiHedge = some hx) ∧
      (∀ q hx, (q, hx) ∈ p.aiHedges →
        q ∉ p.risks.map Scoring.ScoredRisk.questionID →
        ∀ row ∈ db4.riskResults, row.reportID = p.reportID →
          row.questionID ≠ q) := by
  have h1 : Store.SetReportProcessing db p.reportID
      = ({ db with reports := db.reports.map fun t =>
            if t.id = p.reportID then { t with status := .processing } else t },
         .ok { rep with status := .processing }) := by
    rw [Store.SetReportProcessing, hrep]
  set db1 : Store.DB :=
    { db with reports := db.reports.map fun t =>
        if t.id = p.reportID then { t with status := .processing } else t } with hdb1
  obtain ⟨db2, m2, hinsEq, hsess2, hrep2, hnext2, ⟨newRows, hnewEq, hnewProps⟩, hwf2,
    hlkOld, hlkNew, hmb2, hminj2⟩ :=
    insertRisks_spec p.reportID p.risks db1 []
      (fun row hrow hr => absurd hr (hnone row hrow))
      hnodup hwf (fun kv hkv => absurd hkv (by simp)) (fun q1 q2 i hq1 _ => by cases hq1)
  have hexm : ∀ q hx i, (q, hx) ∈ p.aiHedges → m2.lookup q = some i →
      ∃ row ∈ db2.riskResults, row.id = i := by
    intro q hx i hm hl
    by_cases hq : q ∈ p.risks.map Scoring.ScoredRisk.questionID
    · obtain ⟨i0, hlk0, hex0, _⟩ := hlkNew q hq
      rw [hlk0] at hl
      cases hl
      exact hex0
    · rw [hlkOld q hq] at hl
      cases hl
  obtain ⟨db3, happlyEq, hsess3, hreps3, hnext3, hstrip3, hover3⟩ :=
    applyAIHedges_spec p.aiHedges db2 m2 hkeys hminj2 hexm
  have hfind3 : db3.reports.find? (fun t => t.id = p.reportID)
      = some { rep with status := .processing } := by
    rw [hreps3, hrep2]
    exact find?_map_update Store.Report.id
      (fun t => { t with status := .processing }) p.reportID (fun t => rfl)
      db.reports rep hrep
  obtain ⟨db4, rep2, hfinEq, hrisks4⟩ :
      ∃ db4 rep2, Store.FinalizeReport db3 p.reportID (Scoring.OverallScore p.risks)
        (Scoring.CriticalCount p.risks) p.risks p.executiveSummary p.topPriorityHTML
        = (db4, .ok rep2) ∧ db4.riskResults = db3.riskResults := by
    simp only [Store.FinalizeReport, hfind3]
    exact ⟨_, _, rfl, rfl⟩
  have hmain : Store.PersistScoredReport db p = (db4, .ok rep2) := by
    simp only [Store.PersistScoredReport, h1, hinsEq, happlyEq, hfinEq]
  refine ⟨db4, rep2, hmain, ?_, ?_⟩
  · intro q hx hm hne hq
    obtain ⟨i, hlk, ⟨rowEx, hrowExMem, hrowExId⟩, hAll⟩ := hlkNew q hq
    have hallRows3 : ∀ row ∈ db3.riskResults, row.id = i → row.aiHedge = some hx :=
      hover3 q hx i hm hne hlk
    obtain ⟨row3, hrow3Mem, hid3, hrepEq3, hqEq3⟩ :=
      mem_of_strip_map_eq hstrip3.symm rowEx hrowExMem
    obtain ⟨hRrid, hRq, _⟩ := hAll rowEx hrowExMem hrowExId
    refine ⟨row3, by rw [hrisks4]; exact hrow3Mem, ?_, ?_, ?_⟩
    · rw [hrepEq3, hRrid]
    · rw [hqEq3, hRq]
    · exact hallRows3 row3 hrow3Mem (by rw [hid3, hrowExId])
  · intro q hx hm hq row hrow hrid
    rw [hrisks4] at hrow
    obtain ⟨row2, hrow2Mem, _, hrep2x, hq2x⟩ := mem_of_strip_map_eq hstrip3 row hrow
    rw [hnewEq] at hrow2Mem
    rcases List.mem_append.mp hrow2Mem with hold | hnewm
    · exact absurd (hrep2x.trans hrid) (hnone row2 hold)
    · obtain ⟨_, _, hq3, _⟩ := hnewProps row2 hnewm
      intro hqq
      rw [hq2x, hqq] at hq3
      exact hq hq3

/-- C3 counterexample: an AI-hedge entry whose question id is scored but
whose text is the empty string is skipped - the result row keeps a NULL
ai_hedge even though the entry's id is among the scored risks - while the
operation still finalizes the report. -/
theorem persistScoredReport_empty_hedge_skipped :
    ((Store.PersistScoredReport dbOneReport paramsEmptyHedge).1.riskResults.map
        (fun r => (r.questionID, r.aiHedge))) = [("q1", none)] ∧
    ((Store.PersistScoredReport dbOneReport paramsEmptyHedge).1.reports.map
        (fun r => r.status)) = [.ready] := by
  constructor <;> rfl

/-- Witness for C3 (amended): a mixed AI-hedge map with one applicable
override, one orphan id, and one empty-text override. -/
theorem persistScoredReport_overrides_witness :
    ∃ db4 rep2,
      Store.PersistScoredReport dbOneReport paramsMixedHedges = (db4, .ok rep2) ∧
      (∀ q hx, (q, hx) ∈ paramsMixedHedges.aiHedges → hx ≠ "" →
        q ∈ paramsMixedHedges.risks.map Scoring.ScoredRisk.questionID →
        ∃ row ∈ db4.riskResults, row.reportID = paramsMixedHedges.reportID ∧
          row.questionID = q ∧ row.aiHedge = some hx) ∧
      (∀ q hx, (q, hx) ∈ paramsMixedHedges.aiHedges →
        q ∉ paramsMixedHedges.risks.map Scoring.ScoredRisk.questionID →
        ∀ row ∈ db4.riskResults, row.reportID = paramsMixedHedges.reportID →
          row.questionID ≠ q) :=
  persistScoredReport_overrides dbOneReport paramsMixedHedges
    { id := 0, sessionID := 0 } (by decide) (by decide) (by decide) (by decide) (by decide)
